import Mathlib

/-!
Verification of the webhook validation + idempotent fan-out pipeline of
katie-ann-clay-mailer.

The development shallowly embeds the program's logic:

* `src/api/webflow/order.js` — `verifyWebhookSignature`, `validateEnvironment`,
  `validateWebhookPayload`, the idempotency cache (`isAlreadyProcessed`,
  `markAsProcessed`), the per-line-item fan-out and the exported `handler`.
* `src/lib/retry.js` — `withBackoff` and `defaultShouldRetry`.
* `src/lib/webflow.js` — `isWorkshopProduct` (the CommonJS variant that
  exports it, which is the module `order.js` requires).

JavaScript values flowing through the webhook are modelled by a small `Json`
inductive together with JS truthiness, property access, optional chaining and
template-literal stringification.  Node's `crypto` primitives (`createHmac`,
`createHash('sha256')`, `Buffer.from(-, 'hex')`, `timingSafeEqual`) are
modelled concretely: SHA-256 per FIPS 180-4 over byte lists (`Nat`s reduced
mod 256 / mod 2^32), HMAC per FIPS 198-1, and Node's hex decoder, which is
case-insensitive and stops at the first invalid character.  The external
HTTP collaborators (Webflow product fetch, guideline resolution, Resend
dispatch) and `JSON.parse`/`JSON.stringify` are oracles passed to the
handler as explicit function parameters; exceptions are modelled as
`Except`.  Wall-clock aspects (backoff delays, jitter, `processedAt`
timestamps) do not influence any returned value and are not modelled.
-/

set_option maxRecDepth 100000

/-! ## JavaScript value model -/

/-- JSON-representable JavaScript values (numbers restricted to integers;
the webhook payloads and products the claims concern use none other). -/
inductive Json where
  | null
  | bool (b : Bool)
  | num (n : Int)
  | str (s : String)
  | arr (elems : List Json)
  | obj (fields : List (String × Json))
deriving Repr

/-- JS truthiness of a `Json` value: `null`, `false`, `0` and `""` are falsy;
objects and arrays are always truthy. -/
def jsTruthy : Json → Bool
  | .null => false
  | .bool b => b
  | .num n => n != 0
  | .str s => s != ""
  | .arr _ => true
  | .obj _ => true

/-- Property access `v[k]`: `none` models JS `undefined`.  Accessing a
property of a primitive or an array yields `undefined` (no own string
properties are relevant to the program). -/
def jsGetProp : Json → String → Option Json
  | .obj fields, k => (fields.find? (fun p => p.1 == k)).map (fun p => p.2)
  | _, _ => none

/-- Optional chaining `v[k1]?.[k2]`: short-circuits to `undefined` when
`v[k1]` is absent or `null`. -/
def jsGetPath (v : Json) (k1 k2 : String) : Option Json :=
  match jsGetProp v k1 with
  | none => none
  | some .null => none
  | some w => jsGetProp w k2

/-- JS `a || b` on possibly-undefined values: yields `a` when truthy,
otherwise `b`. -/
def jsOr (a b : Option Json) : Option Json :=
  match a with
  | some v => if jsTruthy v then some v else b
  | none => b

/-- Strict equality of a JS value against a string literal. -/
def jsIsStr (v : Json) (s : String) : Bool :=
  match v with
  | .str t => t == s
  | _ => false

/-- Template-literal stringification `${v}` (arrays join their elements with
commas per JS `Array.prototype.toString`, under which a `null` element
renders as the empty string; objects print as `[object Object]`). -/
def jsToString : Json → String
  | .null => "null"
  | .bool true => "true"
  | .bool false => "false"
  | .num n => toString n
  | .str s => s
  | .obj _ => "[object Object]"
  | .arr l => goList l
where
  /-- Join array elements with commas. -/
  goList : List Json → String
  | [] => ""
  | [.null] => ""
  | [j] => jsToString j
  | .null :: rest => "," ++ goList rest
  | j :: rest => jsToString j ++ "," ++ goList rest

/-- Template-literal stringification where the value may be `undefined`. -/
def jsToStringOpt : Option Json → String
  | none => "undefined"
  | some j => jsToString j

/-- JS `s.includes(sub)`: substring containment. -/
def strIncludes (s sub : String) : Bool := decide (List.IsInfix sub.data s.data)

/-! ## Node crypto model: SHA-256 (FIPS 180-4), HMAC (FIPS 198-1), hex -/

/-- Truncation to a 32-bit word. -/
def w32 (n : Nat) : Nat := n % 4294967296

/-- Right rotation of a 32-bit word. -/
def rotr32 (x n : Nat) : Nat := w32 ((x >>> n) ||| (x <<< (32 - n)))

/-- The choice function of the SHA-256 round. -/
def shaCh (x y z : Nat) : Nat := (x &&& y) ^^^ ((x ^^^ 4294967295) &&& z)

/-- The majority function of the SHA-256 round. -/
def shaMaj (x y z : Nat) : Nat := (x &&& y) ^^^ (x &&& z) ^^^ (y &&& z)

/-- Big sigma-0. -/
def bigSigma0 (x : Nat) : Nat := rotr32 x 2 ^^^ rotr32 x 13 ^^^ rotr32 x 22

/-- Big sigma-1. -/
def bigSigma1 (x : Nat) : Nat := rotr32 x 6 ^^^ rotr32 x 11 ^^^ rotr32 x 25

/-- Small sigma-0 (message schedule). -/
def smallSigma0 (x : Nat) : Nat := rotr32 x 7 ^^^ rotr32 x 18 ^^^ (x >>> 3)

/-- Small sigma-1 (message schedule). -/
def smallSigma1 (x : Nat) : Nat := rotr32 x 17 ^^^ rotr32 x 19 ^^^ (x >>> 10)

/-- The 64 SHA-256 round constants. -/
def K256 : List Nat :=
  [1116352408, 1899447441, 3049323471, 3921009573, 961987163, 1508970993,
   2453635748, 2870763221, 3624381080, 310598401, 607225278, 1426881987,
   1925078388, 2162078206, 2614888103, 3248222580, 3835390401, 4022224774,
   264347078, 604807628, 770255983, 1249150122, 1555081692, 1996064986,
   2554220882, 2821834349, 2952996808, 3210313671, 3336571891, 3584528711,
   113926993, 338241895, 666307205, 773529912, 1294757372, 1396182291,
   1695183700, 1986661051, 2177026350, 2456956037, 2730485921, 2820302411,
   3259730800, 3345764771, 3516065817, 3600352804, 4094571909, 275423344,
   430227734, 506948616, 659060556, 883997877, 958139571, 1322822218,
   1537002063, 1747873779, 1955562222, 2024104815, 2227730452, 2361852424,
   2428436474, 2756734187, 3204031479, 3329325298]

/-- The eight-word SHA-256 chaining state. -/
structure Hash8 where
  h0 : Nat
  h1 : Nat
  h2 : Nat
  h3 : Nat
  h4 : Nat
  h5 : Nat
  h6 : Nat
  h7 : Nat

/-- The SHA-256 initial hash value. -/
def sha256Init : Hash8 :=
  ⟨1779033703, 3144134277, 1013904242, 2773480762,
   1359893119, 2600822924, 528734635, 1541459225⟩

/-- Big-endian grouping of bytes into 32-bit words. -/
def bytesToWords : List Nat → List Nat
  | b0 :: b1 :: b2 :: b3 :: rest => (((b0 * 256 + b1) * 256 + b2) * 256 + b3) :: bytesToWords rest
  | _ => []

/-- Extend the 16-word message schedule by the given number of words. -/
def extendWords (ws : List Nat) : Nat → List Nat
  | 0 => ws
  | n + 1 =>
    let i := ws.length
    let s0 := smallSigma0 (ws.getD (i - 15) 0)
    let s1 := smallSigma1 (ws.getD (i - 2) 0)
    extendWords (ws ++ [w32 (ws.getD (i - 16) 0 + s0 + ws.getD (i - 7) 0 + s1)]) n

/-- The eight working registers of the compression loop. -/
structure Regs where
  a : Nat
  b : Nat
  c : Nat
  d : Nat
  e : Nat
  f : Nat
  g : Nat
  h : Nat

/-- One SHA-256 round, consuming a (round constant, schedule word) pair. -/
def roundStep (r : Regs) (kw : Nat × Nat) : Regs :=
  let t1 := w32 (r.h + bigSigma1 r.e + shaCh r.e r.f r.g + kw.1 + kw.2)
  let t2 := w32 (bigSigma0 r.a + shaMaj r.a r.b r.c)
  ⟨w32 (t1 + t2), r.a, r.b, r.c, w32 (r.d + t1), r.e, r.f, r.g⟩

/-- Run the 64 compression rounds. -/
def runRounds (r : Regs) : List (Nat × Nat) → Regs
  | [] => r
  | kw :: rest => runRounds (roundStep r kw) rest

/-- Compress one 64-byte block into the chaining state. -/
def compressBlock (st : Hash8) (block : List Nat) : Hash8 :=
  let ws := extendWords (bytesToWords block) 48
  let r := runRounds ⟨st.h0, st.h1, st.h2, st.h3, st.h4, st.h5, st.h6, st.h7⟩ (K256.zip ws)
  ⟨w32 (st.h0 + r.a), w32 (st.h1 + r.b), w32 (st.h2 + r.c), w32 (st.h3 + r.d),
   w32 (st.h4 + r.e), w32 (st.h5 + r.f), w32 (st.h6 + r.g), w32 (st.h7 + r.h)⟩

/-- Fold the compression function over the given number of 64-byte blocks. -/
def foldBlocks (st : Hash8) (bytes : List Nat) : Nat → Hash8
  | 0 => st
  | n + 1 => foldBlocks (compressBlock st (bytes.take 64)) (bytes.drop 64) n

/-- SHA-256 padding: append `0x80`, zero bytes, then the 64-bit big-endian
bit length, reaching a multiple of 64 bytes. -/
def sha256Pad (msg : List Nat) : List Nat :=
  let len := msg.length
  let zeros := (120 - (len + 1) % 64) % 64
  let bitLen := len * 8
  msg ++ [128] ++ List.replicate zeros 0 ++
    [(bitLen >>> 56) % 256, (bitLen >>> 48) % 256, (bitLen >>> 40) % 256, (bitLen >>> 32) % 256,
     (bitLen >>> 24) % 256, (bitLen >>> 16) % 256, (bitLen >>> 8) % 256, bitLen % 256]

/-- Big-endian serialization of a 32-bit word to four bytes. -/
def wordBytes (w : Nat) : List Nat := [(w >>> 24) % 256, (w >>> 16) % 256, (w >>> 8) % 256, w % 256]

/-- Serialize the chaining state to the 32 digest bytes. -/
def hashBytes (st : Hash8) : List Nat :=
  wordBytes st.h0 ++ wordBytes st.h1 ++ wordBytes st.h2 ++ wordBytes st.h3 ++
    wordBytes st.h4 ++ wordBytes st.h5 ++ wordBytes st.h6 ++ wordBytes st.h7

/-- SHA-256 of a byte list. -/
def sha256 (msg : List Nat) : List Nat :=
  let padded := sha256Pad msg
  hashBytes (foldBlocks sha256Init padded (padded.length / 64))

/-- HMAC-SHA256 of `msg` under `key` (FIPS 198-1), as Node's
`crypto.createHmac('sha256', key)` computes it. -/
def hmacSha256 (key msg : List Nat) : List Nat :=
  let k := if 64 < key.length then sha256 key else key
  let k0 := k ++ List.replicate (64 - k.length) 0
  sha256 ((k0.map (fun x => x ^^^ 92)) ++ sha256 ((k0.map (fun x => x ^^^ 54)) ++ msg))

/-- UTF-8 encoding of one character. -/
def utf8Char (c : Char) : List Nat :=
  let n := c.toNat
  if n < 128 then [n]
  else if n < 2048 then [192 ||| (n >>> 6), 128 ||| (n &&& 63)]
  else if n < 65536 then [224 ||| (n >>> 12), 128 ||| ((n >>> 6) &&& 63), 128 ||| (n &&& 63)]
  else [240 ||| (n >>> 18), 128 ||| ((n >>> 12) &&& 63), 128 ||| ((n >>> 6) &&& 63), 128 ||| (n &&& 63)]

/-- UTF-8 bytes of a string, as Node's `hash.update(string)` consumes it. -/
def utf8Bytes (s : String) : List Nat := s.data.flatMap utf8Char

/-- The lowercase hex digit for a nibble. -/
def hexDigitChar (n : Nat) : Char := if n < 10 then Char.ofNat (48 + n) else Char.ofNat (87 + n)

/-- Lowercase hex characters of a byte list. -/
def hexChars : List Nat → List Char
  | [] => []
  | x :: rest => hexDigitChar (x / 16) :: hexDigitChar (x % 16) :: hexChars rest

/-- Lowercase hex encoding of a byte list, as Node's `digest('hex')`. -/
def hexOfBytes (bs : List Nat) : String := String.mk (hexChars bs)

/-- Hex-encoded SHA-256, as `crypto.createHash('sha256').update(s).digest('hex')`. -/
def sha256Hex (msg : List Nat) : String := hexOfBytes (sha256 msg)

/-- Hex digit value of a character; Node's hex decoder accepts both cases. -/
def decNib (c : Char) : Option Nat :=
  let n := c.toNat
  if 48 ≤ n ∧ n ≤ 57 then some (n - 48)
  else if 97 ≤ n ∧ n ≤ 102 then some (n - 87)
  else if 65 ≤ n ∧ n ≤ 70 then some (n - 55)
  else none

/-- Node hex decoding: consume complete valid pairs, stopping at the first
invalid character (a trailing lone digit is dropped); never throws. -/
def decodePairs : List Char → List Nat
  | c1 :: c2 :: rest =>
    match decNib c1, decNib c2 with
    | some hi, some lo => (16 * hi + lo) :: decodePairs rest
    | _, _ => []
  | _ => []

/-- Node's `Buffer.from(s, 'hex')`, as a byte list. -/
def nodeHexDecode (s : String) : List Nat := decodePairs s.data

/-- Node's `crypto.timingSafeEqual`: throws (`.error`) on mismatched buffer
lengths, else compares contents (constant-time in Node; content equality
here). -/
def timingSafeEqual (a b : List Nat) : Except String Bool :=
  if a.length = b.length then .ok (a == b)
  else .error "Input buffers must have the same byte length"

/-! ## src/api/webflow/order.js — verifyWebhookSignature -/

/-- Signature verification (order.js lines 25-48).  The three header/secret
parameters are `Option String` (`none` models an absent JS value); an absent
or empty value fails the initial falsiness guard.  The `try` block can throw
only inside `timingSafeEqual` (Node hex decoding never throws); the `catch`
returns `false`. -/
def verifyWebhookSignature (rawBody : String) (signature timestamp secret : Option String) : Bool :=
  match signature, timestamp, secret with
  | some sig, some ts, some sec =>
    if sig = "" ∨ ts = "" ∨ sec = "" then false
    else
      let content := ts ++ ":" ++ rawBody
      let expected := hexOfBytes (hmacSha256 (utf8Bytes sec) (utf8Bytes content))
      match timingSafeEqual (nodeHexDecode sig) (nodeHexDecode expected) with
      | .ok b => b
      | .error _ => false
  | _, _, _ => false

/-! ## src/lib/retry.js — withBackoff and defaultShouldRetry -/

/-- A thrown JS error as the retry layer observes it: its `message`, the
optional `response.status` of an HTTP error, and the optional network error
`code`. -/
structure JsErr where
  message : String
  status : Option Nat := none
  code : Option String := none
deriving DecidableEq

/-- Default retry classification (retry.js lines 54-68): HTTP 429, any HTTP
5xx, and connection-reset/timeout network errors are retryable. -/
def defaultShouldRetry (e : JsErr) : Bool :=
  if e.status = some 429 then true
  else if (match e.status with | some s => decide (500 ≤ s) | none => false) then true
  else if e.code = some "ECONNRESET" ∨ e.code = some "ETIMEDOUT" then true
  else false

/-- Worker for `withBackoff`: `fuel` is the number of retries still allowed
(`maxRetries - attempt`), so `fuel = 0` is the final allowed attempt.  The
operation receives the attempt index; the second component counts how many
times it was invoked.  The backoff delay (base delay, exponential factor,
jitter, cap, `sleep`) affects only timing, never a returned value, and is
not modelled. -/
def withBackoffAux (fn : Nat → Except ε α) (shouldRetry : ε → Bool) : Nat → Nat → Except ε α × Nat
  | 0, attempt =>
    match fn attempt with
    | .ok v => (.ok v, 1)
    | .error e => (.error e, 1)
  | fuel + 1, attempt =>
    match fn attempt with
    | .ok v => (.ok v, 1)
    | .error e =>
      if shouldRetry e then
        let r := withBackoffAux fn shouldRetry fuel (attempt + 1)
        (r.1, r.2 + 1)
      else (.error e, 1)

/-- Retry with exponential backoff (retry.js lines 15-49): on success return
immediately; on the final attempt raise the last error; on a non-retryable
error raise immediately; otherwise retry.  Returns the outcome and the
number of calls made to the operation. -/
def withBackoff (fn : Nat → Except ε α) (maxRetries : Nat) (shouldRetry : ε → Bool) :
    Except ε α × Nat :=
  withBackoffAux fn shouldRetry maxRetries 0

/-! ## src/lib/webflow.js — isWorkshopProduct -/

/-- Workshop classification (webflow.js).  The argument is
`productResponse.product`, which may be absent (`none`) or `null`; JS then
throws reading `.fieldData`, modelled as `.error`.  `fieldData.category` is
tested for truthiness and then `includes` is called on it: JS arrays test
element membership, strings test substring containment, and any other
truthy value throws a `TypeError`.  Note the category check is evaluated
before the final disjunction, so a throwing category is an error even when
the type id already matched. -/
def isWorkshopProduct (product : Option Json) : Except String Bool :=
  match product with
  | none => .error "Cannot read properties of undefined (reading 'fieldData')"
  | some .null => .error "Cannot read properties of null (reading 'fieldData')"
  | some p =>
    let fieldData :=
      match jsGetProp p "fieldData" with
      | some v => if jsTruthy v then v else Json.obj []
      | none => Json.obj []
    let isService :=
      match jsGetProp fieldData "ec-product-type" with
      | some v => jsIsStr v "c599e43b1a1c34d5a323aedf75d3adf6"
      | none => false
    match jsGetProp fieldData "category" with
    | none => .ok isService
    | some cat =>
      if ¬ jsTruthy cat then .ok isService
      else
        match cat with
        | .arr l => .ok (isService || l.any (fun j => jsIsStr j "66e8d658ede37e2f7706b996"))
        | .str s => .ok (isService || strIncludes s "66e8d658ede37e2f7706b996")
        | _ => .error "fieldData.category.includes is not a function"

/-! ## src/api/webflow/order.js — validation, idempotency cache, fan-out -/

/-- The environment variables the handler reads. -/
structure EnvVars where
  siteId : Option String := none
  apiToken : Option String := none
  resendApiKey : Option String := none
  fromEmail : Option String := none
  webhookSecret : Option String := none
  templateId : Option String := none

/-- JS falsiness of an environment value: absent or empty string. -/
def envFalsy (v : Option String) : Bool := v.getD "" == ""

/-- Environment validation (order.js lines 54-60): collect the required
variable names whose values are falsy and throw listing them. -/
def validateEnvironment (env : EnvVars) : Except String Unit :=
  let required := [("WEBFLOW_SITE_ID", env.siteId), ("WEBFLOW_API_TOKEN", env.apiToken),
    ("RESEND_API_KEY", env.resendApiKey), ("RESEND_FROM_EMAIL", env.fromEmail)]
  let missing := (required.filter (fun p => envFalsy p.2)).map (fun p => p.1)
  if missing.length > 0 then
    .error ("Missing required environment variables: " ++ String.intercalate ", " missing)
  else .ok ()

/-- JS `typeof v === 'object'` for parsed JSON values (`null`, arrays and
objects qualify). -/
def typeofObject : Json → Bool
  | .null => true
  | .arr _ => true
  | .obj _ => true
  | _ => false

/-- The call `customerEmail.includes('@')`: substring test on strings,
element membership on arrays, `TypeError` on any other truthy value. -/
def includesAt (v : Json) : Except String Bool :=
  match v with
  | .str s => .ok (s.data.any (fun c => c == '@'))
  | .arr l => .ok (l.any (fun j => jsIsStr j "@"))
  | _ => .error "customerEmail.includes is not a function"

/-- Payload validation (order.js lines 68-88): unwrap an envelope nested
under `payload` when truthy, require a customer email containing `"@"`
under `customer.email` or `customerInfo.email`, and require a non-empty
line items array under `lineItems` or `purchasedItems`.  No order id check
is performed.  Returns `(customerEmail, lineItems, orderData)`. -/
def validateWebhookPayload (payload : Json) : Except String (Json × List Json × Json) :=
  if ¬ jsTruthy payload ∨ ¬ typeofObject payload then .error "Invalid payload format"
  else
    let orderData :=
      match jsGetProp payload "payload" with
      | some v => if jsTruthy v then v else payload
      | none => payload
    match jsOr (jsGetPath orderData "customer" "email") (jsGetPath orderData "customerInfo" "email") with
    | none => .error "Invalid or missing customer email"
    | some ev =>
      if ¬ jsTruthy ev then .error "Invalid or missing customer email"
      else
        match includesAt ev with
        | .error m => .error m
        | .ok hasAt =>
          if ¬ hasAt then .error "Invalid or missing customer email"
          else
            let liVal :=
              match jsOr (jsGetProp orderData "lineItems") (jsGetProp orderData "purchasedItems") with
              | some v => if jsTruthy v then v else Json.arr []
              | none => Json.arr []
            match liVal with
            | .arr items =>
              if items.length = 0 then .error "No items in order"
              else .ok (ev, items, orderData)
            | _ => .error "No items in order"

/-- A per-line-item processing result, mirroring the JS result objects
(absent fields are `none`). -/
structure ItemResult where
  productId : Option Json := none
  status : String
  reason : Option String := none
  error : Option String := none
  workshopName : Option Json := none
  emailSent : Option Bool := none

/-- Cache size bound (order.js line 16). -/
def MAX_CACHE_SIZE : Nat := 1000

/-- The idempotency cache: a JS `Map` in insertion order, oldest first.  The
stored `processedAt` wall-clock timestamp is never read back and is not
modelled; the stored value is the processing result. -/
abbrev Cache := List (String × ItemResult)

/-- Cache membership (order.js lines 95-97, `processedOrders.has`). -/
def isAlreadyProcessed (idempotencyKey : String) (c : Cache) : Bool :=
  c.any (fun p => p.1 == idempotencyKey)

/-- JS `Map.prototype.set`: update an existing key in place (keeping its
insertion position) or append a new entry. -/
def mapSet (c : Cache) (k : String) (v : ItemResult) : Cache :=
  if c.any (fun p => p.1 == k) then c.map (fun p => if p.1 == k then (p.1, v) else p)
  else c ++ [(k, v)]

/-- Record a processed key (order.js lines 104-116): when the cache is at
capacity, first delete the entry of the first (oldest-inserted) key, then
insert the new entry. -/
def markAsProcessed (idempotencyKey : String) (result : ItemResult) (c : Cache) : Cache :=
  let c1 :=
    if MAX_CACHE_SIZE ≤ c.length then
      match c with
      | [] => []
      | (firstKey, _) :: _ => c.eraseP (fun p => p.1 == firstKey)
    else c
  mapSet c1 idempotencyKey result

/-- Details composed for the orientation email (order.js lines 333-343),
mirroring `workshopData` with JS `||` defaulting. -/
structure WorkshopData where
  name : Option Json
  date : Option Json
  location : Option Json
  guidelinesHtml : Option Json
  duration : Option Json
  whatToBring : Option Json
  parking : Option Json
  reschedulePolicy : Option Json
  faq : Option Json

/-- Customer details for the email (order.js lines 355-358). -/
structure CustomerData where
  customerName : Option Json
  orderId : Option Json

/-- The external collaborators the handler awaits, as oracle functions:
`JSON.stringify` / `JSON.parse` (Node builtins; `parse` returning `none`
models a parse exception) and the three HTTP-backed calls, modelled as
deterministic functions of their arguments for the duration of one request;
a `.error` result models a thrown/rejected call. -/
structure Oracles where
  stringify : Json → String
  parse : String → Option Json
  getProduct : Option String → Option Json → Except JsErr Json
  resolveGuidelines : Option String → Option Json → Except JsErr Json
  sendWorkshopEmail : Json → WorkshopData → CustomerData → Option String → Except JsErr Unit

/-- The idempotency key of order.js lines 247-250: hex SHA-256 of the
template literal `${orderId}-${customerEmail}-${lineItem.productId}`. -/
def idempotencyKeyFor (orderId : Option Json) (customerEmail : Json) (productId : Option Json) :
    String :=
  sha256Hex (utf8Bytes
    (jsToStringOpt orderId ++ "-" ++ jsToString customerEmail ++ "-" ++ jsToStringOpt productId))

/-- The body of the per-line-item `try` (order.js lines 245-414): idempotency
check, product fetch (through `withBackoff` with defaults), workshop
classification, guideline resolution, email dispatch, cache write.  Any
thrown error (`.error` from a collaborator or a JS `TypeError`) is caught
and recorded as a `status: "error"` result for this item.  Returns the
item's result, the updated cache, and the number of calls made to the email
dispatch collaborator. -/
def processLineItem (ov : Oracles) (env : EnvVars) (orderId : Option Json)
    (customerEmail : Json) (orderData : Json) (lineItem : Json) (c : Cache) :
    ItemResult × Cache × Nat :=
  let pid := jsGetProp lineItem "productId"
  let idempotencyKey := idempotencyKeyFor orderId customerEmail pid
  if isAlreadyProcessed idempotencyKey c then
    ({ productId := pid, status := "skipped", reason := some "Already processed" }, c, 0)
  else
    match withBackoff (fun _ => ov.getProduct env.siteId pid) 3 defaultShouldRetry with
    | (.error e, _) => ({ productId := pid, status := "error", error := some e.message }, c, 0)
    | (.ok productResponse, _) =>
      match isWorkshopProduct (jsGetProp productResponse "product") with
      | .error m => ({ productId := pid, status := "error", error := some m }, c, 0)
      | .ok false =>
        ({ productId := pid, status := "skipped", reason := some "Not a workshop product" }, c, 0)
      | .ok true =>
        match withBackoff (fun _ => ov.resolveGuidelines env.siteId pid) 3 defaultShouldRetry with
        | (.error e, _) => ({ productId := pid, status := "error", error := some e.message }, c, 0)
        | (.ok guidelines, _) =>
          if ¬ jsTruthy guidelines then
            ({ productId := pid, status := "error",
               error := some "No guidelines found for workshop" }, c, 0)
          else
            let workshopData : WorkshopData :=
              { name := jsOr (jsGetProp guidelines "name") (jsGetProp lineItem "name")
                date := jsOr (jsGetProp guidelines "date") (some (Json.str "TBD"))
                location := jsOr (jsGetProp guidelines "location") (some (Json.str "TBD"))
                guidelinesHtml := jsOr (jsGetProp guidelines "guidelinesHtml")
                  (some (Json.str "Guidelines coming soon..."))
                duration := jsGetProp guidelines "duration"
                whatToBring := jsGetProp guidelines "whatToBring"
                parking := jsGetProp guidelines "parking"
                reschedulePolicy := jsGetProp guidelines "reschedulePolicy"
                faq := jsGetProp guidelines "faq" }
            let customerData : CustomerData :=
              { customerName := jsOr (jsOr (jsGetPath orderData "customer" "name")
                  (jsGetPath orderData "customer" "firstName"))
                  (some (Json.str "Workshop Participant"))
                orderId := orderId }
            match withBackoff
                (fun _ => ov.sendWorkshopEmail customerEmail workshopData customerData
                  env.templateId) 3 defaultShouldRetry with
            | (.error e, n) =>
              ({ productId := pid, status := "error", error := some e.message }, c, n)
            | (.ok _, n) =>
              let result : ItemResult :=
                { productId := pid, status := "success", workshopName := workshopData.name,
                  emailSent := some true }
              (result, markAsProcessed idempotencyKey result c, n)

/-- The fan-out loop (order.js lines 236-415): process line items strictly in
order, threading the cache and summing email dispatch calls; every item
contributes exactly one result. -/
def processItems (ov : Oracles) (env : EnvVars) (orderId : Option Json) (customerEmail : Json)
    (orderData : Json) : List Json → Cache → List ItemResult × Cache × Nat
  | [], c => ([], c, 0)
  | item :: rest, c =>
    let step := processLineItem ov env orderId customerEmail orderData item c
    let further := processItems ov env orderId customerEmail orderData rest step.2.1
    (step.1 :: further.1, further.2.1, step.2.2 + further.2.2)

/-- The inbound request body: either a raw string (signature uses it as-is,
then `JSON.parse` runs) or a platform-parsed object (signature uses
`JSON.stringify` of it, no parse step can fail). -/
inductive ReqBody where
  | raw (s : String)
  | parsed (j : Json)

/-- An inbound HTTP request as the handler reads it. -/
structure Req where
  method : String
  body : ReqBody
  signatureHeader : Option String := none
  timestampHeader : Option String := none

/-- The JSON body the handler responds with: a bare `{error}` for non-200
responses, the success body of order.js lines 445-452, or the
`{success: false, error}` body of the outer catch (lines 475-480).
Timestamp and timing fields are wall-clock-only and not modelled. -/
inductive RespBody where
  | err (msg : String)
  | okBody (orderId : Option Json) (customerEmail : Json) (results : List ItemResult)
  | fail (errorMsg : String)

/-- An HTTP response: status code plus JSON body. -/
structure Response where
  status : Nat
  body : RespBody

/-- The top-level `success` field of the response body (absent on the
non-200 error bodies). -/
def successField : Response → Option Bool
  | ⟨_, .okBody _ _ _⟩ => some true
  | ⟨_, .fail _⟩ => some false
  | ⟨_, .err _⟩ => none

/-- The top-level `error` field of the response body. -/
def errorField : Response → Option String
  | ⟨_, .err m⟩ => some m
  | ⟨_, .fail m⟩ => some m
  | ⟨_, .okBody _ _ _⟩ => none

/-- The `results` field of the response body. -/
def resultsField : Response → Option (List ItemResult)
  | ⟨_, .okBody _ _ rs⟩ => some rs
  | _ => none

/-- The outer catch (order.js lines 454-481): an error whose message contains
`"Invalid"` or `"Missing"` is surfaced verbatim, anything else becomes
`"Internal processing error"`; always HTTP 200 with `success: false`. -/
def catchResponse (msg : String) : Response :=
  let isValidationError := strIncludes msg "Invalid" || strIncludes msg "Missing"
  { status := 200, body := .fail (if isValidationError then msg else "Internal processing error") }

/-- The exported webhook handler (order.js lines 118-482): method gate, then
inside `try`: environment validation, raw-body recovery, signature
verification, payload parse, payload validation, fan-out, 200 success
response; thrown validation/environment errors reach the outer catch.
Returns the response, the updated idempotency cache, and the number of email
dispatch calls made. -/
def handler (ov : Oracles) (env : EnvVars) (req : Req) (c : Cache) : Response × Cache × Nat :=
  if req.method ≠ "POST" then ({ status := 405, body := .err "Method not allowed" }, c, 0)
  else
    match validateEnvironment env with
    | .error msg => (catchResponse msg, c, 0)
    | .ok _ =>
      let rawBody :=
        match req.body with
        | .raw s => s
        | .parsed j => ov.stringify j
      if ¬ verifyWebhookSignature rawBody req.signatureHeader req.timestampHeader
          env.webhookSecret then
        ({ status := 401, body := .err "Invalid signature" }, c, 0)
      else
        let payloadOpt :=
          match req.body with
          | .raw s => ov.parse s
          | .parsed j => some j
        match payloadOpt with
        | none => ({ status := 400, body := .err "Invalid JSON payload" }, c, 0)
        | some payload =>
          match validateWebhookPayload payload with
          | .error msg => (catchResponse msg, c, 0)
          | .ok (customerEmail, lineItems, orderData) =>
            let orderId := jsOr (jsGetProp orderData "orderId") (jsGetProp orderData "id")
            let outcome := processItems ov env orderId customerEmail orderData lineItems c
            ({ status := 200, body := .okBody orderId customerEmail outcome.1 },
              outcome.2.1, outcome.2.2)

/-! ## Notions used by the claim statements -/

-- Equality instances for `Except` results, used to state oracle outcomes.
deriving instance DecidableEq for Except

/-- Flip bit `b` of the `j`-th character of a string: the single-bit
mutations of a signature string. -/
def flipBit (s : String) (j b : Nat) : String :=
  String.mk (s.data.set j (Char.ofNat (((s.data.getD j (Char.ofNat 0)).toNat) ^^^ (1 <<< b))))

/-- The hex nibble written at position `j` of the hex encoding of `bs`:
high nibble of byte `j / 2` at even positions, low nibble at odd ones. -/
def hexNibbleAt (bs : List Nat) (j : Nat) : Nat :=
  if j % 2 = 0 then bs.getD (j / 2) 0 / 16 else bs.getD (j / 2) 0 % 16

/-! ## Byte-level facts about the digest and hex codecs -/

theorem wordBytes_lt {w x : Nat} (hx : x ∈ wordBytes w) : x < 256 := by
  simp only [wordBytes, List.mem_cons, List.not_mem_nil, or_false] at hx
  rcases hx with rfl | rfl | rfl | rfl <;> omega

theorem hashBytes_lt {st : Hash8} {x : Nat} (hx : x ∈ hashBytes st) : x < 256 := by
  simp only [hashBytes, List.mem_append] at hx
  rcases hx with ((((((h | h) | h) | h) | h) | h) | h) | h <;> exact wordBytes_lt h

theorem hashBytes_length (st : Hash8) : (hashBytes st).length = 32 := by
  simp [hashBytes, wordBytes]

theorem sha256_lt {m : List Nat} {x : Nat} (hx : x ∈ sha256 m) : x < 256 :=
  hashBytes_lt hx

theorem sha256_length (m : List Nat) : (sha256 m).length = 32 :=
  hashBytes_length _

theorem hmacSha256_lt {key m : List Nat} {x : Nat} (hx : x ∈ hmacSha256 key m) : x < 256 :=
  sha256_lt hx

theorem hmacSha256_length (key m : List Nat) : (hmacSha256 key m).length = 32 :=
  sha256_length _

theorem hexChars_length (bs : List Nat) : (hexChars bs).length = 2 * bs.length := by
  induction bs with
  | nil => rfl
  | cons x rest ih => simp [hexChars, ih]; omega

theorem hexChars_append (p q : List Nat) : hexChars (p ++ q) = hexChars p ++ hexChars q := by
  induction p with
  | nil => rfl
  | cons x rest ih => simp [hexChars, ih]

theorem decNib_hexDigitChar : ∀ n, n < 16 → decNib (hexDigitChar n) = some n := by decide

theorem decodePairs_hexChars_append (p : List Nat) (rest : List Char)
    (hp : ∀ x ∈ p, x < 256) :
    decodePairs (hexChars p ++ rest) = p ++ decodePairs rest := by
  induction p with
  | nil => rfl
  | cons x t ih =>
    have hx : x < 256 := hp x (List.mem_cons_self ..)
    have h1 : decNib (hexDigitChar (x / 16)) = some (x / 16) :=
      decNib_hexDigitChar _ (by omega)
    have h2 : decNib (hexDigitChar (x % 16)) = some (x % 16) :=
      decNib_hexDigitChar _ (by omega)
    have ht : ∀ y ∈ t, y < 256 := fun y hy => hp y (List.mem_cons_of_mem _ hy)
    simp [hexChars, decodePairs, h1, h2, ih ht, Nat.div_add_mod]

theorem nodeHexDecode_hexOfBytes {bs : List Nat} (h : ∀ x ∈ bs, x < 256) :
    nodeHexDecode (hexOfBytes bs) = bs := by
  have := decodePairs_hexChars_append bs [] h
  simpa [nodeHexDecode, hexOfBytes, decodePairs] using this

theorem hexOfBytes_ne_empty {bs : List Nat} (h : bs ≠ []) : hexOfBytes bs ≠ "" := by
  cases bs with
  | nil => exact absurd rfl h
  | cons x t =>
    intro hcontra
    have : (hexChars (x :: t)) = ([] : List Char) := by
      have := congrArg String.data hcontra
      simpa [hexOfBytes] using this
    simp [hexChars] at this

theorem timingSafeEqual_self (a : List Nat) : timingSafeEqual a a = .ok true := by
  simp [timingSafeEqual]

/-! ## Facts about the cache operations -/

theorem mapSet_length_le (c : Cache) (k : String) (v : ItemResult) :
    (mapSet c k v).length ≤ c.length + 1 := by
  unfold mapSet
  split
  · simp
  · simp

theorem markAsProcessed_length_le {c : Cache} (k : String) (v : ItemResult)
    (h : c.length ≤ MAX_CACHE_SIZE) :
    (markAsProcessed k v c).length ≤ MAX_CACHE_SIZE := by
  unfold markAsProcessed
  split
  · next hfull =>
    cases c with
    | nil => exact absurd hfull (by norm_num [MAX_CACHE_SIZE])
    | cons p t =>
      have herase : ((p :: t).eraseP (fun q => q.1 == p.1)) = t := by
        apply List.eraseP_cons_of_pos
        simp
      calc (mapSet ((p :: t).eraseP (fun q => q.1 == p.1)) k v).length
          ≤ ((p :: t).eraseP (fun q => q.1 == p.1)).length + 1 := mapSet_length_le ..
        _ ≤ MAX_CACHE_SIZE := by rw [herase]; simp at h ⊢; omega
  · next hfree =>
    calc (mapSet c k v).length ≤ c.length + 1 := mapSet_length_le ..
      _ ≤ MAX_CACHE_SIZE := by omega

theorem isAlreadyProcessed_iff (k : String) (c : Cache) :
    isAlreadyProcessed k c = true ↔ k ∈ c.map Prod.fst := by
  unfold isAlreadyProcessed
  rw [List.any_eq_true]
  constructor
  · rintro ⟨p, hp, he⟩
    rw [beq_iff_eq] at he
    exact List.mem_map.mpr ⟨p, hp, he⟩
  · intro hk
    obtain ⟨p, hp, he⟩ := List.mem_map.mp hk
    exact ⟨p, hp, by rw [beq_iff_eq]; exact he⟩

theorem mapSet_fresh {c : Cache} {k : String} (h : k ∉ c.map Prod.fst) (v : ItemResult) :
    mapSet c k v = c ++ [(k, v)] := by
  unfold mapSet
  rw [if_neg]
  intro hc
  rw [List.any_eq_true] at hc
  obtain ⟨p, hp, he⟩ := hc
  rw [beq_iff_eq] at he
  exact h (List.mem_map.mpr ⟨p, hp, he⟩)

theorem markAsProcessed_not_full {c : Cache} (k : String) (v : ItemResult)
    (h : c.length < MAX_CACHE_SIZE) : markAsProcessed k v c = mapSet c k v := by
  unfold markAsProcessed
  rw [if_neg (by omega)]

theorem markAsProcessed_full {p : String × ItemResult} {t : Cache} (k : String) (v : ItemResult)
    (h : MAX_CACHE_SIZE ≤ (p :: t).length) : markAsProcessed k v (p :: t) = mapSet t k v := by
  unfold markAsProcessed
  rw [if_pos h]
  have : (p :: t).eraseP (fun q => q.1 == p.1) = t := List.eraseP_cons_of_pos (by simp)
  simp only [this]

theorem foldl_markAsProcessed_keys (v : ItemResult) (ks : List String) :
    ∀ (c : Cache), (c.map Prod.fst ++ ks).Nodup → c.length ≤ MAX_CACHE_SIZE →
      (ks.foldl (fun acc k => markAsProcessed k v acc) c).map Prod.fst =
          (c.map Prod.fst ++ ks).drop (c.length + ks.length - MAX_CACHE_SIZE)
        ∧ (ks.foldl (fun acc k => markAsProcessed k v acc) c).length ≤ MAX_CACHE_SIZE := by
  induction ks with
  | nil =>
    intro c hnd hlen
    have hz : c.length + 0 - MAX_CACHE_SIZE = 0 := by omega
    simp [hz, hlen]
  | cons k ks ih =>
    intro c hnd hlen
    have hkfresh : k ∉ c.map Prod.fst := by
      rw [List.nodup_append] at hnd
      exact fun hk => hnd.2.2 hk (List.mem_cons_self ..)
    by_cases hfull : c.length < MAX_CACHE_SIZE
    · have hstep : markAsProcessed k v c = c ++ [(k, v)] := by
        rw [markAsProcessed_not_full _ _ hfull, mapSet_fresh hkfresh]
      have hkeys : (c ++ [(k, v)]).map Prod.fst = c.map Prod.fst ++ [k] := by simp
      have hnd' : ((c ++ [(k, v)]).map Prod.fst ++ ks).Nodup := by
        rw [hkeys, List.append_assoc]
        simpa using hnd
      have hlen' : (c ++ [(k, v)]).length ≤ MAX_CACHE_SIZE := by
        simp only [List.length_append, List.length_cons, List.length_nil]
        omega
      obtain ⟨h1, h2⟩ := ih (c ++ [(k, v)]) hnd' hlen'
      refine ⟨?_, by simpa [hstep] using h2⟩
      simp only [List.foldl_cons, hstep]
      rw [h1, hkeys, List.append_assoc]
      have : (c ++ [(k, v)]).length + ks.length - MAX_CACHE_SIZE =
          c.length + (k :: ks).length - MAX_CACHE_SIZE := by
        simp only [List.length_append, List.length_cons, List.length_nil]
        omega
      rw [this]
      rfl
    · have hceq : c.length = MAX_CACHE_SIZE := by omega
      cases c with
      | nil => exact absurd hceq (by norm_num [MAX_CACHE_SIZE])
      | cons p t =>
        have hstep : markAsProcessed k v (p :: t) = t ++ [(k, v)] := by
          rw [markAsProcessed_full _ _ (by omega)]
          refine mapSet_fresh ?_ v
          intro hk
          exact hkfresh (by simpa using Or.inr hk)
        have hkeys : (t ++ [(k, v)]).map Prod.fst = t.map Prod.fst ++ [k] := by simp
        have hnd0 : ((p :: t).map Prod.fst ++ k :: ks).Nodup := hnd
        have hnd' : ((t ++ [(k, v)]).map Prod.fst ++ ks).Nodup := by
          rw [hkeys, List.append_assoc]
          simp only [List.map_cons, List.cons_append, List.nodup_cons] at hnd0
          simpa using hnd0.2
        have hlen' : (t ++ [(k, v)]).length ≤ MAX_CACHE_SIZE := by
          simp only [List.length_append, List.length_cons, List.length_nil]
          simp only [List.length_cons] at hceq
          omega
        obtain ⟨h1, h2⟩ := ih (t ++ [(k, v)]) hnd' hlen'
        refine ⟨?_, by simpa [hstep] using h2⟩
        simp only [List.foldl_cons, hstep]
        rw [h1, hkeys, List.append_assoc]
        have hc1 : (t ++ [(k, v)]).length + ks.length - MAX_CACHE_SIZE = ks.length := by
          simp only [List.length_append, List.length_cons, List.length_nil]
          simp only [List.length_cons] at hceq
          omega
        have hc2 : (p :: t).length + (k :: ks).length - MAX_CACHE_SIZE = ks.length + 1 := by
          simp only [List.length_cons] at hceq ⊢
          omega
        rw [hc1, hc2]
        simp only [List.map_cons, List.cons_append, List.drop_succ_cons]
        rfl

/-- C4: the idempotency cache holds at most `MAX_CACHE_SIZE` (1000) entries
after every operation; at capacity `markAsProcessed` first evicts exactly
the single oldest-inserted entry and then inserts the new one (the result on
a full cache with a fresh key is the tail of the cache with the new entry
appended, never two entries fewer); and inserting `MAX_CACHE_SIZE + 1`
distinct keys into an empty cache leaves exactly `MAX_CACHE_SIZE` entries,
with the very first key absent and every other key present. -/
theorem cache_bounded_fifo :
    (∀ (k : String) (v : ItemResult) (c : Cache),
        c.length ≤ MAX_CACHE_SIZE → (markAsProcessed k v c).length ≤ MAX_CACHE_SIZE)
  ∧ (∀ (p : String × ItemResult) (t : Cache) (k : String) (v : ItemResult),
        (p :: t).length = MAX_CACHE_SIZE → k ∉ (p :: t).map Prod.fst →
        markAsProcessed k v (p :: t) = t ++ [(k, v)])
  ∧ (∀ (k0 : String) (rest : List String) (v : ItemResult),
        (k0 :: rest).Nodup → rest.length = MAX_CACHE_SIZE →
        ((k0 :: rest).foldl (fun acc k => markAsProcessed k v acc) []).length = MAX_CACHE_SIZE
        ∧ isAlreadyProcessed k0
            ((k0 :: rest).foldl (fun acc k => markAsProcessed k v acc) []) = false
        ∧ ∀ k ∈ rest, isAlreadyProcessed k
            ((k0 :: rest).foldl (fun acc k => markAsProcessed k v acc) []) = true) := by
  refine ⟨fun k v c h => markAsProcessed_length_le k v h, ?_, ?_⟩
  · intro p t k v hlen hfresh
    rw [markAsProcessed_full _ _ (by omega)]
    refine mapSet_fresh ?_ v
    intro hk
    exact hfresh (by simpa using Or.inr hk)
  · intro k0 rest v hnd hrest
    obtain ⟨hkeys, hlen⟩ := foldl_markAsProcessed_keys v (k0 :: rest) []
      (by simpa using hnd) (by norm_num [MAX_CACHE_SIZE])
    have hdrop : ([] : Cache).length + (k0 :: rest).length - MAX_CACHE_SIZE = 1 := by
      simp only [List.length_nil, List.length_cons, hrest]
      omega
    rw [hdrop] at hkeys
    simp only [List.map_nil, List.nil_append, List.drop_succ_cons, List.drop_zero] at hkeys
    have hk0 : k0 ∉ rest := (List.nodup_cons.mp hnd).1
    refine ⟨?_, ?_, ?_⟩
    · have := congrArg List.length hkeys
      simpa [hrest] using this
    · rw [← Bool.not_eq_true, isAlreadyProcessed_iff, hkeys]
      exact hk0
    · intro k hk
      rw [isAlreadyProcessed_iff, hkeys]
      exact hk

/-- Key list for the C4 witness: 1000 pairwise-distinct strings. -/
def c4RestKeys : List String := (List.range MAX_CACHE_SIZE).map (fun n => String.mk (List.replicate n 'a'))

/-- A result value stored by the C4 witness. -/
def c4Val : ItemResult := { status := "success" }

/-- A full cache for the C4 witness's eviction instance. -/
def c4FullTail : Cache := List.replicate 999 ("x", c4Val)

theorem cache_bounded_fifo_witness :
    (([] : Cache).length ≤ MAX_CACHE_SIZE
      ∧ (("p0", c4Val) :: c4FullTail).length = MAX_CACHE_SIZE
      ∧ "k" ∉ (("p0", c4Val) :: c4FullTail).map Prod.fst
      ∧ ("z" :: c4RestKeys).Nodup ∧ c4RestKeys.length = MAX_CACHE_SIZE)
  ∧ (markAsProcessed "k" c4Val []).length ≤ MAX_CACHE_SIZE
  ∧ markAsProcessed "k" c4Val (("p0", c4Val) :: c4FullTail) = c4FullTail ++ [("k", c4Val)]
  ∧ (("z" :: c4RestKeys).foldl (fun acc k => markAsProcessed k c4Val acc) []).length
      = MAX_CACHE_SIZE := by
  have hflen : (("p0", c4Val) :: c4FullTail).length = MAX_CACHE_SIZE := by
    simp only [c4FullTail, List.length_cons, List.length_replicate, MAX_CACHE_SIZE]
  have hffresh : "k" ∉ (("p0", c4Val) :: c4FullTail).map Prod.fst := by
    simp only [c4FullTail, List.map_cons, List.map_replicate, List.mem_cons, List.mem_replicate]
    decide
  have hinj : Function.Injective (fun n => String.mk (List.replicate n 'a')) := by
    intro a b h
    have := congrArg (fun s => s.data.length) h
    simpa using this
  have hrestnd : c4RestKeys.Nodup := (List.nodup_range _).map hinj
  have hz : "z" ∉ c4RestKeys := by
    intro hmem
    rw [c4RestKeys, List.mem_map] at hmem
    obtain ⟨n, -, h⟩ := hmem
    have hd := congrArg String.data h
    simp only at hd
    have hl := congrArg List.length hd
    simp only [List.length_replicate] at hl
    subst hl
    simp at hd
  have hnd : ("z" :: c4RestKeys).Nodup := List.nodup_cons.mpr ⟨hz, hrestnd⟩
  have hlen : c4RestKeys.length = MAX_CACHE_SIZE := by simp [c4RestKeys]
  exact ⟨⟨by simp, hflen, hffresh, hnd, hlen⟩,
    cache_bounded_fifo.1 "k" c4Val [] (by simp),
    cache_bounded_fifo.2.1 ("p0", c4Val) c4FullTail "k" c4Val hflen hffresh,
    (cache_bounded_fifo.2.2 "z" c4RestKeys c4Val hnd hlen).1⟩

/-- C6: with default options (`maxRetries = 3`, `defaultShouldRetry`),
`withBackoff` returns the operation's value as soon as any attempt succeeds
(after `k` retryably-failing attempts, a success on attempt `k` is returned
with `k + 1` total calls — in particular two 503 failures then a success
return the success value on the third call); a non-retryable error such as
HTTP 400 is raised immediately after exactly one call; and when every
attempt fails retryably the last-seen error is raised after
`maxRetries + 1 = 4` calls. -/
theorem withBackoff_retry_policy :
    (∀ (α : Type) (fn : Nat → Except JsErr α) (v : α) (k : Nat), k ≤ 3 →
        (∀ i, i < k → ∃ e, fn i = .error e ∧ defaultShouldRetry e = true) →
        fn k = .ok v →
        withBackoff fn 3 defaultShouldRetry = (.ok v, k + 1))
  ∧ (∀ (α : Type) (e : JsErr), e.status = some 400 → e.code = none →
        withBackoff (fun _ => (.error e : Except JsErr α)) 3 defaultShouldRetry = (.error e, 1))
  ∧ (∀ (α : Type) (es : Nat → JsErr), (∀ i, defaultShouldRetry (es i) = true) →
        withBackoff (fun i => (.error (es i) : Except JsErr α)) 3 defaultShouldRetry
          = (.error (es 3), 4)) := by
  refine ⟨?_, ?_, ?_⟩
  · intro α fn v k hk hfail hok
    interval_cases k
    · simp [withBackoff, withBackoffAux, hok]
    · obtain ⟨e0, h0, h0r⟩ := hfail 0 (by omega)
      simp [withBackoff, withBackoffAux, h0, h0r, hok]
    · obtain ⟨e0, h0, h0r⟩ := hfail 0 (by omega)
      obtain ⟨e1, h1, h1r⟩ := hfail 1 (by omega)
      simp [withBackoff, withBackoffAux, h0, h0r, h1, h1r, hok]
    · obtain ⟨e0, h0, h0r⟩ := hfail 0 (by omega)
      obtain ⟨e1, h1, h1r⟩ := hfail 1 (by omega)
      obtain ⟨e2, h2, h2r⟩ := hfail 2 (by omega)
      simp [withBackoff, withBackoffAux, h0, h0r, h1, h1r, h2, h2r, hok]
  · intro α e hst hcode
    have hsr : defaultShouldRetry e = false := by
      simp [defaultShouldRetry, hst, hcode]
    simp [withBackoff, withBackoffAux, hsr]
  · intro α es h
    simp [withBackoff, withBackoffAux, h 0, h 1, h 2]

/-- A retryable HTTP 503 error used by the C6 witness. -/
def c6err503 : JsErr := { message := "Service Unavailable", status := some 503 }

/-- A non-retryable HTTP 400 error used by the C6 witness. -/
def c6err400 : JsErr := { message := "Bad Request", status := some 400 }

/-- An operation failing twice with 503 then succeeding, for the C6 witness. -/
def c6fn : Nat → Except JsErr Json := fun i => if i < 2 then .error c6err503 else .ok (Json.str "ok")

theorem withBackoff_retry_policy_witness :
    ((2 ≤ 3
        ∧ (∀ i, i < 2 → ∃ e, c6fn i = .error e ∧ defaultShouldRetry e = true)
        ∧ c6fn 2 = .ok (Json.str "ok"))
      ∧ withBackoff c6fn 3 defaultShouldRetry = (.ok (Json.str "ok"), 3))
  ∧ ((c6err400.status = some 400 ∧ c6err400.code = none)
      ∧ withBackoff (fun _ => (.error c6err400 : Except JsErr Json)) 3 defaultShouldRetry
          = (.error c6err400, 1))
  ∧ ((∀ i : Nat, defaultShouldRetry ((fun _ => c6err503) i) = true)
      ∧ withBackoff (fun i => (.error ((fun _ => c6err503) i) : Except JsErr Json)) 3
          defaultShouldRetry = (.error ((fun _ => c6err503) 3), 4)) := by
  have hfail : ∀ i, i < 2 → ∃ e, c6fn i = .error e ∧ defaultShouldRetry e = true := by
    intro i hi
    interval_cases i <;> exact ⟨c6err503, rfl, by decide⟩
  exact ⟨⟨⟨by omega, hfail, rfl⟩,
      withBackoff_retry_policy.1 Json c6fn (Json.str "ok") 2 (by omega) hfail rfl⟩,
    ⟨⟨rfl, rfl⟩, withBackoff_retry_policy.2.1 Json c6err400 rfl rfl⟩,
    ⟨fun _ => (show defaultShouldRetry c6err503 = true by decide),
      withBackoff_retry_policy.2.2 Json (fun _ => c6err503)
        (fun _ => (show defaultShouldRetry c6err503 = true by decide))⟩⟩

/-! ## Facts about the backoff wrapper applied to constant operations -/

theorem withBackoff_const_ok {α ε : Type} (v : α) (n : Nat) (sr : ε → Bool) :
    withBackoff (fun _ => (.ok v : Except ε α)) n sr = (.ok v, 1) := by
  cases n <;> rfl

theorem withBackoffAux_const_error {α ε : Type} (e : ε) (sr : ε → Bool) :
    ∀ fuel attempt, withBackoffAux (fun _ => (.error e : Except ε α)) sr fuel attempt
      = (.error e, if sr e then fuel + 1 else 1) := by
  intro fuel
  induction fuel with
  | zero =>
    intro attempt
    cases hsr : sr e <;> simp [withBackoffAux, hsr]
  | succ n ih =>
    intro attempt
    cases hsr : sr e <;> simp [withBackoffAux, hsr, ih (attempt + 1)]

theorem withBackoff_const_error {α ε : Type} (e : ε) (n : Nat) (sr : ε → Bool) :
    withBackoff (fun _ => (.error e : Except ε α)) n sr
      = (.error e, if sr e then n + 1 else 1) :=
  withBackoffAux_const_error e sr n 0

/-! ## Key-membership facts about the cache operations -/

theorem mem_keys_mapSet {c : Cache} {k k' : String} {v : ItemResult}
    (h : k ∈ (mapSet c k' v).map Prod.fst) : k = k' ∨ k ∈ c.map Prod.fst := by
  unfold mapSet at h
  split at h
  · refine Or.inr ?_
    rw [List.map_map] at h
    have hfst : (Prod.fst ∘ fun p : String × ItemResult => if p.1 == k' then (p.1, v) else p)
        = Prod.fst := by
      funext p
      simp only [Function.comp_apply]
      split <;> rfl
    rwa [hfst] at h
  · rw [List.map_append] at h
    rcases List.mem_append.mp h with h | h
    · exact Or.inr h
    · simp at h
      exact Or.inl h

theorem mem_keys_mapSet_self (c : Cache) (k : String) (v : ItemResult) :
    k ∈ (mapSet c k v).map Prod.fst := by
  unfold mapSet
  split
  · next hc =>
    rw [List.any_eq_true] at hc
    obtain ⟨p, hp, he⟩ := hc
    rw [List.map_map]
    refine List.mem_map.mpr ⟨p, hp, ?_⟩
    have he' : p.1 = k := by rwa [beq_iff_eq] at he
    simp only [Function.comp_apply, he, if_true]
    exact he'
  · simp

theorem mem_keys_markAsProcessed {c : Cache} {k k' : String} {v : ItemResult}
    (h : k ∈ (markAsProcessed k' v c).map Prod.fst) : k = k' ∨ k ∈ c.map Prod.fst := by
  unfold markAsProcessed at h
  rcases mem_keys_mapSet h with h1 | h1
  · exact Or.inl h1
  · split at h1
    · split at h1
      · simp at h1
      · refine Or.inr ?_
        exact (List.Sublist.map Prod.fst (List.eraseP_sublist _)).mem h1
    · exact Or.inr h1

theorem isAlreadyProcessed_markAsProcessed_self (c : Cache) (k : String) (v : ItemResult) :
    isAlreadyProcessed k (markAsProcessed k v c) = true := by
  rw [isAlreadyProcessed_iff]
  unfold markAsProcessed
  exact mem_keys_mapSet_self _ _ _

theorem isAlreadyProcessed_markAsProcessed_ne {c : Cache} {k k' : String} (v : ItemResult)
    (hne : k ≠ k') (h : isAlreadyProcessed k c = false) :
    isAlreadyProcessed k (markAsProcessed k' v c) = false := by
  rw [← Bool.not_eq_true, isAlreadyProcessed_iff]
  intro hmem
  rcases mem_keys_markAsProcessed hmem with h1 | h1
  · exact hne h1
  · rw [← isAlreadyProcessed_iff] at h1
    rw [h1] at h
    exact Bool.true_eq_false.mp h

/-! ## Behaviour of one fan-out step under hypotheses on the collaborators -/

theorem processLineItem_skip (ov : Oracles) (env : EnvVars) (orderId : Option Json)
    (customerEmail orderData lineItem : Json) (c : Cache)
    (hhit : isAlreadyProcessed
      (idempotencyKeyFor orderId customerEmail (jsGetProp lineItem "productId")) c = true) :
    processLineItem ov env orderId customerEmail orderData lineItem c =
      ({ productId := jsGetProp lineItem "productId", status := "skipped",
         reason := some "Already processed" }, c, 0) := by
  simp only [processLineItem, hhit, if_true]

theorem processLineItem_success (ov : Oracles) (env : EnvVars) (orderId : Option Json)
    (customerEmail orderData lineItem presp g : Json) (c : Cache)
    (hfresh : isAlreadyProcessed
      (idempotencyKeyFor orderId customerEmail (jsGetProp lineItem "productId")) c = false)
    (hprod : ov.getProduct env.siteId (jsGetProp lineItem "productId") = .ok presp)
    (hwk : isWorkshopProduct (jsGetProp presp "product") = .ok true)
    (hgl : ov.resolveGuidelines env.siteId (jsGetProp lineItem "productId") = .ok g)
    (hgt : jsTruthy g = true)
    (hsend : ∀ e w cd t, ov.sendWorkshopEmail e w cd t = .ok ()) :
    processLineItem ov env orderId customerEmail orderData lineItem c =
      ({ productId := jsGetProp lineItem "productId", status := "success",
         workshopName := jsOr (jsGetProp g "name") (jsGetProp lineItem "name"),
         emailSent := some true },
       markAsProcessed (idempotencyKeyFor orderId customerEmail (jsGetProp lineItem "productId"))
         { productId := jsGetProp lineItem "productId", status := "success",
           workshopName := jsOr (jsGetProp g "name") (jsGetProp lineItem "name"),
           emailSent := some true } c,
       1) := by
  simp only [processLineItem, hfresh, Bool.false_eq_true, if_false, hprod, withBackoff_const_ok,
    hwk, hgl, hgt, not_true, hsend]

theorem processLineItem_fetch_error (ov : Oracles) (env : EnvVars) (orderId : Option Json)
    (customerEmail orderData lineItem : Json) (c : Cache) (e : JsErr)
    (hfresh : isAlreadyProcessed
      (idempotencyKeyFor orderId customerEmail (jsGetProp lineItem "productId")) c = false)
    (hprod : ov.getProduct env.siteId (jsGetProp lineItem "productId") = .error e) :
    processLineItem ov env orderId customerEmail orderData lineItem c =
      ({ productId := jsGetProp lineItem "productId", status := "error",
         error := some e.message }, c, 0) := by
  simp only [processLineItem, hfresh, Bool.false_eq_true, if_false, hprod,
    withBackoff_const_error]

/-- The error message of an `Except`, if any (projection used to state
outcomes without needing decidable equality of payloads). -/
def exceptErrMsg {α : Type} : Except String α → Option String
  | .error m => some m
  | .ok _ => none

theorem processItems_length (ov : Oracles) (env : EnvVars) (orderId : Option Json)
    (customerEmail orderData : Json) :
    ∀ (items : List Json) (c : Cache),
      ((processItems ov env orderId customerEmail orderData items c).1).length
        = items.length := by
  intro items
  induction items with
  | nil => intro c; rfl
  | cons item rest ih =>
    intro c
    simp only [processItems, List.length_cons, ih]

/-- Unfolding of the handler on a request that passes the method check,
environment validation, signature verification, parsing and payload
validation: HTTP 200 with the fan-out outcome. -/
theorem handler_eq_ok {ov : Oracles} {env : EnvVars} {req : Req} {c : Cache}
    {payload customerEmail orderData : Json} {lineItems : List Json}
    (hm : req.method = "POST")
    (henv : validateEnvironment env = .ok ())
    (hsig : verifyWebhookSignature
      (match req.body with | .raw s => s | .parsed j => ov.stringify j)
      req.signatureHeader req.timestampHeader env.webhookSecret = true)
    (hparse : (match req.body with | .raw s => ov.parse s | .parsed j => some j) = some payload)
    (hval : validateWebhookPayload payload = .ok (customerEmail, lineItems, orderData)) :
    handler ov env req c =
      ({ status := 200,
         body := .okBody (jsOr (jsGetProp orderData "orderId") (jsGetProp orderData "id"))
           customerEmail
           (processItems ov env (jsOr (jsGetProp orderData "orderId") (jsGetProp orderData "id"))
             customerEmail orderData lineItems c).1 },
       (processItems ov env (jsOr (jsGetProp orderData "orderId") (jsGetProp orderData "id"))
         customerEmail orderData lineItems c).2.1,
       (processItems ov env (jsOr (jsGetProp orderData "orderId") (jsGetProp orderData "id"))
         customerEmail orderData lineItems c).2.2) := by
  simp only [handler, hm, henv, hsig, hparse, hval]
  simp

/-- C3: processing the same line item twice in sequence — with the product
classified as a workshop and every upstream call succeeding — yields
`status: "success"` on the first pass and `status: "skipped"` with reason
`"Already processed"` on the second, with exactly one call to the email
dispatch collaborator across both passes; the shared idempotency key is the
hex SHA-256 of the string `{orderId}-{customerEmail}-{productId}`. -/
theorem idempotent_double_processing
    (ov : Oracles) (env : EnvVars) (orderId : Option Json)
    (customerEmail orderData lineItem presp g : Json) (c : Cache)
    (hfresh : isAlreadyProcessed
      (idempotencyKeyFor orderId customerEmail (jsGetProp lineItem "productId")) c = false)
    (hprod : ov.getProduct env.siteId (jsGetProp lineItem "productId") = .ok presp)
    (hwk : isWorkshopProduct (jsGetProp presp "product") = .ok true)
    (hgl : ov.resolveGuidelines env.siteId (jsGetProp lineItem "productId") = .ok g)
    (hgt : jsTruthy g = true)
    (hsend : ∀ e w cd t, ov.sendWorkshopEmail e w cd t = .ok ()) :
    ((processItems ov env orderId customerEmail orderData [lineItem] c).1.map
        (fun r => r.status) = ["success"])
    ∧ ((processItems ov env orderId customerEmail orderData [lineItem]
          (processItems ov env orderId customerEmail orderData [lineItem] c).2.1).1.map
          (fun r => (r.status, r.reason)) = [("skipped", some "Already processed")])
    ∧ (processItems ov env orderId customerEmail orderData [lineItem] c).2.2
        + (processItems ov env orderId customerEmail orderData [lineItem]
            (processItems ov env orderId customerEmail orderData [lineItem] c).2.1).2.2 = 1
    ∧ isAlreadyProcessed
        (sha256Hex (utf8Bytes (jsToStringOpt orderId ++ "-" ++ jsToString customerEmail
          ++ "-" ++ jsToStringOpt (jsGetProp lineItem "productId"))))
        (processItems ov env orderId customerEmail orderData [lineItem] c).2.1 = true := by
  have hstep := processLineItem_success ov env orderId customerEmail orderData lineItem presp g c
    hfresh hprod hwk hgl hgt hsend
  have hrun1 : processItems ov env orderId customerEmail orderData [lineItem] c =
      ([{ productId := jsGetProp lineItem "productId", status := "success",
          workshopName := jsOr (jsGetProp g "name") (jsGetProp lineItem "name"),
          emailSent := some true }],
       markAsProcessed (idempotencyKeyFor orderId customerEmail (jsGetProp lineItem "productId"))
         { productId := jsGetProp lineItem "productId", status := "success",
           workshopName := jsOr (jsGetProp g "name") (jsGetProp lineItem "name"),
           emailSent := some true } c,
       1) := by
    simp only [processItems, hstep, Nat.add_zero]
  have hhit := isAlreadyProcessed_markAsProcessed_self c
    (idempotencyKeyFor orderId customerEmail (jsGetProp lineItem "productId"))
    { productId := jsGetProp lineItem "productId", status := "success",
      workshopName := jsOr (jsGetProp g "name") (jsGetProp lineItem "name"),
      emailSent := some true }
  have hstep2 := processLineItem_skip ov env orderId customerEmail orderData lineItem _ hhit
  rw [hrun1]
  have hrun2 : processItems ov env orderId customerEmail orderData [lineItem]
      (markAsProcessed (idempotencyKeyFor orderId customerEmail (jsGetProp lineItem "productId"))
        { productId := jsGetProp lineItem "productId", status := "success",
          workshopName := jsOr (jsGetProp g "name") (jsGetProp lineItem "name"),
          emailSent := some true } c) =
      ([{ productId := jsGetProp lineItem "productId", status := "skipped",
          reason := some "Already processed" }],
       markAsProcessed (idempotencyKeyFor orderId customerEmail (jsGetProp lineItem "productId"))
         { productId := jsGetProp lineItem "productId", status := "success",
           workshopName := jsOr (jsGetProp g "name") (jsGetProp lineItem "name"),
           emailSent := some true } c,
       0) := by
    simp only [processItems, hstep2, Nat.add_zero]
  rw [hrun2]
  exact ⟨rfl, rfl, rfl, hhit⟩

/-! ## Concrete fixtures for scenario witnesses -/

/-- Environment with all required variables set. -/
def wEnv : EnvVars :=
  { siteId := some "site", apiToken := some "tok", resendApiKey := some "rk",
    fromEmail := some "from@x.com", webhookSecret := some "s" }

/-- A product response whose product carries the workshop type id. -/
def wProduct : Json :=
  Json.obj [("product", Json.obj [("fieldData",
    Json.obj [("ec-product-type", Json.str "c599e43b1a1c34d5a323aedf75d3adf6")])])]

/-- Resolved guidelines used by scenario witnesses. -/
def wGuidelines : Json := Json.obj [("name", Json.str "Pottery 101")]

/-- A line item carrying the given product id. -/
def wItem (pid : String) : Json := Json.obj [("productId", Json.str pid)]

/-- Collaborators that always succeed. -/
def wOracles : Oracles :=
  { stringify := fun _ => ""
    parse := fun _ => none
    getProduct := fun _ _ => .ok wProduct
    resolveGuidelines := fun _ _ => .ok wGuidelines
    sendWorkshopEmail := fun _ _ _ _ => .ok () }

theorem idempotent_double_processing_witness :
    (isAlreadyProcessed (idempotencyKeyFor (some (Json.str "o1")) (Json.str "a@b.com")
        (jsGetProp (wItem "p1") "productId")) [] = false
      ∧ wOracles.getProduct wEnv.siteId (jsGetProp (wItem "p1") "productId") = .ok wProduct
      ∧ isWorkshopProduct (jsGetProp wProduct "product") = .ok true
      ∧ wOracles.resolveGuidelines wEnv.siteId (jsGetProp (wItem "p1") "productId")
          = .ok wGuidelines
      ∧ jsTruthy wGuidelines = true
      ∧ (∀ e w cd t, wOracles.sendWorkshopEmail e w cd t = .ok ()))
  ∧ ((processItems wOracles wEnv (some (Json.str "o1")) (Json.str "a@b.com") (Json.obj [])
        [wItem "p1"] []).1.map (fun r => r.status) = ["success"])
  ∧ ((processItems wOracles wEnv (some (Json.str "o1")) (Json.str "a@b.com") (Json.obj [])
        [wItem "p1"]
        (processItems wOracles wEnv (some (Json.str "o1")) (Json.str "a@b.com") (Json.obj [])
          [wItem "p1"] []).2.1).1.map (fun r => (r.status, r.reason))
      = [("skipped", some "Already processed")])
  ∧ (processItems wOracles wEnv (some (Json.str "o1")) (Json.str "a@b.com") (Json.obj [])
        [wItem "p1"] []).2.2
      + (processItems wOracles wEnv (some (Json.str "o1")) (Json.str "a@b.com") (Json.obj [])
          [wItem "p1"]
          (processItems wOracles wEnv (some (Json.str "o1")) (Json.str "a@b.com") (Json.obj [])
            [wItem "p1"] []).2.1).2.2 = 1 := by
  have h := idempotent_double_processing wOracles wEnv (some (Json.str "o1"))
    (Json.str "a@b.com") (Json.obj []) (wItem "p1") wProduct wGuidelines []
    rfl rfl rfl rfl rfl (fun _ _ _ _ => rfl)
  exact ⟨⟨rfl, rfl, rfl, rfl, rfl, fun _ _ _ _ => rfl⟩, h.1, h.2.1, h.2.2.1⟩

/-- C9: when both `orderId` and `id` are absent the idempotency key is the
hex SHA-256 of the literal string `undefined-{customerEmail}-{productId}`,
so for two distinct id-less orders by the same customer for the same
product (with the first processed successfully), the second occurrence is
reported as `{status: "skipped", reason: "Already processed"}` and no
second email is dispatched. -/
theorem idless_cross_order_dedup
    (ov : Oracles) (env : EnvVars)
    (customerEmail orderData1 orderData2 item1 item2 presp g : Json) (c : Cache)
    (hpid : jsGetProp item2 "productId" = jsGetProp item1 "productId")
    (hfresh : isAlreadyProcessed
      (idempotencyKeyFor none customerEmail (jsGetProp item1 "productId")) c = false)
    (hprod : ov.getProduct env.siteId (jsGetProp item1 "productId") = .ok presp)
    (hwk : isWorkshopProduct (jsGetProp presp "product") = .ok true)
    (hgl : ov.resolveGuidelines env.siteId (jsGetProp item1 "productId") = .ok g)
    (hgt : jsTruthy g = true)
    (hsend : ∀ e w cd t, ov.sendWorkshopEmail e w cd t = .ok ()) :
    ((processItems ov env none customerEmail orderData1 [item1] c).1.map
        (fun r => r.status) = ["success"])
    ∧ (processItems ov env none customerEmail orderData1 [item1] c).2.2 = 1
    ∧ ((processItems ov env none customerEmail orderData2 [item2]
          (processItems ov env none customerEmail orderData1 [item1] c).2.1).1.map
          (fun r => (r.status, r.reason)) = [("skipped", some "Already processed")])
    ∧ (processItems ov env none customerEmail orderData2 [item2]
          (processItems ov env none customerEmail orderData1 [item1] c).2.1).2.2 = 0
    ∧ isAlreadyProcessed
        (sha256Hex (utf8Bytes ("undefined-" ++ jsToString customerEmail ++ "-"
          ++ jsToStringOpt (jsGetProp item1 "productId"))))
        (processItems ov env none customerEmail orderData1 [item1] c).2.1 = true := by
  have hstep := processLineItem_success ov env none customerEmail orderData1 item1 presp g c
    hfresh hprod hwk hgl hgt hsend
  have hrun1 : processItems ov env none customerEmail orderData1 [item1] c =
      ([{ productId := jsGetProp item1 "productId", status := "success",
          workshopName := jsOr (jsGetProp g "name") (jsGetProp item1 "name"),
          emailSent := some true }],
       markAsProcessed (idempotencyKeyFor none customerEmail (jsGetProp item1 "productId"))
         { productId := jsGetProp item1 "productId", status := "success",
           workshopName := jsOr (jsGetProp g "name") (jsGetProp item1 "name"),
           emailSent := some true } c,
       1) := by
    simp only [processItems, hstep, Nat.add_zero]
  have hhit := isAlreadyProcessed_markAsProcessed_self c
    (idempotencyKeyFor none customerEmail (jsGetProp item1 "productId"))
    { productId := jsGetProp item1 "productId", status := "success",
      workshopName := jsOr (jsGetProp g "name") (jsGetProp item1 "name"),
      emailSent := some true }
  have hhit2 : isAlreadyProcessed
      (idempotencyKeyFor none customerEmail (jsGetProp item2 "productId"))
      (markAsProcessed (idempotencyKeyFor none customerEmail (jsGetProp item1 "productId"))
        { productId := jsGetProp item1 "productId", status := "success",
          workshopName := jsOr (jsGetProp g "name") (jsGetProp item1 "name"),
          emailSent := some true } c) = true := by
    rw [idempotencyKeyFor, hpid, ← idempotencyKeyFor]
    exact hhit
  have hstep2 := processLineItem_skip ov env none customerEmail orderData2 item2 _ hhit2
  rw [hrun1]
  have hrun2 : processItems ov env none customerEmail orderData2 [item2]
      (markAsProcessed (idempotencyKeyFor none customerEmail (jsGetProp item1 "productId"))
        { productId := jsGetProp item1 "productId", status := "success",
          workshopName := jsOr (jsGetProp g "name") (jsGetProp item1 "name"),
          emailSent := some true } c) =
      ([{ productId := jsGetProp item2 "productId", status := "skipped",
          reason := some "Already processed" }],
       markAsProcessed (idempotencyKeyFor none customerEmail (jsGetProp item1 "productId"))
         { productId := jsGetProp item1 "productId", status := "success",
           workshopName := jsOr (jsGetProp g "name") (jsGetProp item1 "name"),
           emailSent := some true } c,
       0) := by
    simp only [processItems, hstep2, Nat.add_zero]
  rw [hrun2]
  exact ⟨rfl, rfl, rfl, rfl, hhit⟩

theorem idless_cross_order_dedup_witness :
    (jsGetProp (wItem "p1") "productId" = jsGetProp (wItem "p1") "productId"
      ∧ isAlreadyProcessed (idempotencyKeyFor none (Json.str "a@b.com")
          (jsGetProp (wItem "p1") "productId")) [] = false
      ∧ wOracles.getProduct wEnv.siteId (jsGetProp (wItem "p1") "productId") = .ok wProduct
      ∧ isWorkshopProduct (jsGetProp wProduct "product") = .ok true
      ∧ wOracles.resolveGuidelines wEnv.siteId (jsGetProp (wItem "p1") "productId")
          = .ok wGuidelines
      ∧ jsTruthy wGuidelines = true
      ∧ (∀ e w cd t, wOracles.sendWorkshopEmail e w cd t = .ok ()))
  ∧ ((processItems wOracles wEnv none (Json.str "a@b.com") (Json.obj [("n", Json.num 1)])
        [wItem "p1"] []).1.map (fun r => r.status) = ["success"])
  ∧ ((processItems wOracles wEnv none (Json.str "a@b.com") (Json.obj [("n", Json.num 2)])
        [wItem "p1"]
        (processItems wOracles wEnv none (Json.str "a@b.com") (Json.obj [("n", Json.num 1)])
          [wItem "p1"] []).2.1).1.map (fun r => (r.status, r.reason))
      = [("skipped", some "Already processed")])
  ∧ (processItems wOracles wEnv none (Json.str "a@b.com") (Json.obj [("n", Json.num 2)])
        [wItem "p1"]
        (processItems wOracles wEnv none (Json.str "a@b.com") (Json.obj [("n", Json.num 1)])
          [wItem "p1"] []).2.1).2.2 = 0 := by
  have h := idless_cross_order_dedup wOracles wEnv (Json.str "a@b.com")
    (Json.obj [("n", Json.num 1)]) (Json.obj [("n", Json.num 2)]) (wItem "p1") (wItem "p1")
    wProduct wGuidelines [] rfl rfl rfl rfl rfl rfl (fun _ _ _ _ => rfl)
  exact ⟨⟨rfl, rfl, rfl, rfl, rfl, rfl, fun _ _ _ _ => rfl⟩, h.1, h.2.2.1, h.2.2.2.1⟩

/-- C8 (amended): the payload validator does not check the order id, so a
request whose order data carries neither `orderId` nor `id` still passes
validation and its line items are processed; the handler's order id falls
back to JS `undefined`, making the idempotency key the hex SHA-256 of
`undefined-{customerEmail}-{productId}`. -/
theorem idless_order_still_processed
    (ov : Oracles) (env : EnvVars)
    (payload customerEmail orderData lineItem presp g : Json) (c : Cache)
    (_hval : validateWebhookPayload payload = .ok (customerEmail, [lineItem], orderData))
    (hoid : jsGetProp orderData "orderId" = none)
    (hid : jsGetProp orderData "id" = none)
    (hfresh : isAlreadyProcessed
      (idempotencyKeyFor none customerEmail (jsGetProp lineItem "productId")) c = false)
    (hprod : ov.getProduct env.siteId (jsGetProp lineItem "productId") = .ok presp)
    (hwk : isWorkshopProduct (jsGetProp presp "product") = .ok true)
    (hgl : ov.resolveGuidelines env.siteId (jsGetProp lineItem "productId") = .ok g)
    (hgt : jsTruthy g = true)
    (hsend : ∀ e w cd t, ov.sendWorkshopEmail e w cd t = .ok ()) :
    ((processItems ov env (jsOr (jsGetProp orderData "orderId") (jsGetProp orderData "id"))
        customerEmail orderData [lineItem] c).1.map (fun r => r.status) = ["success"])
    ∧ (processItems ov env (jsOr (jsGetProp orderData "orderId") (jsGetProp orderData "id"))
        customerEmail orderData [lineItem] c).2.2 = 1
    ∧ isAlreadyProcessed
        (sha256Hex (utf8Bytes ("undefined-" ++ jsToString customerEmail ++ "-"
          ++ jsToStringOpt (jsGetProp lineItem "productId"))))
        (processItems ov env (jsOr (jsGetProp orderData "orderId") (jsGetProp orderData "id"))
          customerEmail orderData [lineItem] c).2.1 = true := by
  have horder : jsOr (jsGetProp orderData "orderId") (jsGetProp orderData "id") = none := by
    rw [hoid, hid]; rfl
  rw [horder]
  have hstep := processLineItem_success ov env none customerEmail orderData lineItem presp g c
    hfresh hprod hwk hgl hgt hsend
  have hrun1 : processItems ov env none customerEmail orderData [lineItem] c =
      ([{ productId := jsGetProp lineItem "productId", status := "success",
          workshopName := jsOr (jsGetProp g "name") (jsGetProp lineItem "name"),
          emailSent := some true }],
       markAsProcessed (idempotencyKeyFor none customerEmail (jsGetProp lineItem "productId"))
         { productId := jsGetProp lineItem "productId", status := "success",
           workshopName := jsOr (jsGetProp g "name") (jsGetProp lineItem "name"),
           emailSent := some true } c,
       1) := by
    simp only [processItems, hstep, Nat.add_zero]
  rw [hrun1]
  exact ⟨rfl, rfl, isAlreadyProcessed_markAsProcessed_self c _ _⟩

/-- The id-less order payload used by the C8 witness and counterexample. -/
def c8Payload : Json :=
  Json.obj [("customer", Json.obj [("email", Json.str "a@b.com")]),
    ("lineItems", Json.arr [wItem "p1"])]

theorem idless_order_still_processed_witness :
    (validateWebhookPayload c8Payload = .ok (Json.str "a@b.com", [wItem "p1"], c8Payload)
      ∧ jsGetProp c8Payload "orderId" = none
      ∧ jsGetProp c8Payload "id" = none
      ∧ isAlreadyProcessed (idempotencyKeyFor none (Json.str "a@b.com")
          (jsGetProp (wItem "p1") "productId")) [] = false
      ∧ wOracles.getProduct wEnv.siteId (jsGetProp (wItem "p1") "productId") = .ok wProduct
      ∧ isWorkshopProduct (jsGetProp wProduct "product") = .ok true
      ∧ wOracles.resolveGuidelines wEnv.siteId (jsGetProp (wItem "p1") "productId")
          = .ok wGuidelines
      ∧ jsTruthy wGuidelines = true
      ∧ (∀ e w cd t, wOracles.sendWorkshopEmail e w cd t = .ok ()))
  ∧ ((processItems wOracles wEnv
        (jsOr (jsGetProp c8Payload "orderId") (jsGetProp c8Payload "id"))
        (Json.str "a@b.com") c8Payload [wItem "p1"] []).1.map (fun r => r.status) = ["success"])
  ∧ (processItems wOracles wEnv
        (jsOr (jsGetProp c8Payload "orderId") (jsGetProp c8Payload "id"))
        (Json.str "a@b.com") c8Payload [wItem "p1"] []).2.2 = 1
  ∧ isAlreadyProcessed
      (sha256Hex (utf8Bytes ("undefined-" ++ jsToString (Json.str "a@b.com") ++ "-"
        ++ jsToStringOpt (jsGetProp (wItem "p1") "productId"))))
      (processItems wOracles wEnv
        (jsOr (jsGetProp c8Payload "orderId") (jsGetProp c8Payload "id"))
        (Json.str "a@b.com") c8Payload [wItem "p1"] []).2.1 = true := by
  have h := idless_order_still_processed wOracles wEnv c8Payload (Json.str "a@b.com")
    c8Payload (wItem "p1") wProduct wGuidelines [] rfl rfl rfl rfl rfl rfl rfl rfl
    (fun _ _ _ _ => rfl)
  exact ⟨⟨rfl, rfl, rfl, rfl, rfl, rfl, rfl, rfl, fun _ _ _ _ => rfl⟩, h.1, h.2.1, h.2.2⟩

/-- The raw request body whose parse yields `c8Payload`. -/
def c8Body : String :=
  "\x7b\"customer\":\x7b\"email\":\"a@b.com\"\x7d,\"lineItems\":[\x7b\"productId\":\"p1\"\x7d]\x7d"

/-- Collaborators for the C8 counterexample run. -/
def c8Oracles : Oracles :=
  { stringify := fun _ => ""
    parse := fun s => if s = c8Body then some c8Payload else none
    getProduct := fun _ _ => .ok wProduct
    resolveGuidelines := fun _ _ => .ok wGuidelines
    sendWorkshopEmail := fun _ _ _ _ => .ok () }

/-- The signed C8 request: a valid signature over the raw body. -/
def c8Req : Req :=
  { method := "POST", body := .raw c8Body,
    signatureHeader := some (hexOfBytes (hmacSha256 (utf8Bytes "s")
      (utf8Bytes ("1688000000000:" ++ c8Body)))),
    timestampHeader := some "1688000000000" }

/-- C8 counterexample: an order event carrying neither `orderId` nor `id`
does not fail validation — the handler processes its line item to
`status: "success"`, dispatches one email, and answers HTTP 200 with
`success: true`, contradicting the claim that such a request fails
validation with no line item processed. -/
theorem order_id_absent_cex :
    (jsGetProp c8Payload "orderId").isNone = true
  ∧ (jsGetProp c8Payload "id").isNone = true
  ∧ (handler c8Oracles wEnv c8Req []).1.status = 200
  ∧ successField (handler c8Oracles wEnv c8Req []).1 = some true
  ∧ (resultsField (handler c8Oracles wEnv c8Req []).1).map
      (fun rs => rs.map (fun r => r.status)) = some ["success"]
  ∧ (handler c8Oracles wEnv c8Req []).2.2 = 1 := by
  decide

/-- C5: an exception while processing one line item is caught per item and
recorded as `{status: "error", error: message}` for that item only.  Every
item always contributes exactly one result (the batch is never aborted);
in a 3-item order whose middle item's product fetch throws while the other
two items' calls succeed, the results are success, error (with the thrown
message), success; and a request that reaches the fan-out still gets an
HTTP 200 response. -/
theorem fanout_isolation :
    (∀ (ov : Oracles) (env : EnvVars) (orderId : Option Json) (customerEmail orderData : Json)
        (items : List Json) (c : Cache),
        ((processItems ov env orderId customerEmail orderData items c).1).length = items.length)
  ∧ (∀ (ov : Oracles) (env : EnvVars) (orderId : Option Json)
        (customerEmail orderData a b d presp g presp2 g2 : Json) (c : Cache) (e : JsErr),
        isAlreadyProcessed
          (idempotencyKeyFor orderId customerEmail (jsGetProp a "productId")) c = false →
        isAlreadyProcessed
          (idempotencyKeyFor orderId customerEmail (jsGetProp b "productId")) c = false →
        isAlreadyProcessed
          (idempotencyKeyFor orderId customerEmail (jsGetProp d "productId")) c = false →
        idempotencyKeyFor orderId customerEmail (jsGetProp b "productId")
          ≠ idempotencyKeyFor orderId customerEmail (jsGetProp a "productId") →
        idempotencyKeyFor orderId customerEmail (jsGetProp d "productId")
          ≠ idempotencyKeyFor orderId customerEmail (jsGetProp a "productId") →
        ov.getProduct env.siteId (jsGetProp a "productId") = .ok presp →
        isWorkshopProduct (jsGetProp presp "product") = .ok true →
        ov.resolveGuidelines env.siteId (jsGetProp a "productId") = .ok g →
        jsTruthy g = true →
        ov.getProduct env.siteId (jsGetProp b "productId") = .error e →
        ov.getProduct env.siteId (jsGetProp d "productId") = .ok presp2 →
        isWorkshopProduct (jsGetProp presp2 "product") = .ok true →
        ov.resolveGuidelines env.siteId (jsGetProp d "productId") = .ok g2 →
        jsTruthy g2 = true →
        (∀ e2 w cd t, ov.sendWorkshopEmail e2 w cd t = .ok ()) →
        (processItems ov env orderId customerEmail orderData [a, b, d] c).1.map
            (fun r => (r.status, r.error)) =
          [("success", none), ("error", some e.message), ("success", none)])
  ∧ (∀ (ov : Oracles) (env : EnvVars) (req : Req) (c : Cache)
        (payload customerEmail orderData : Json) (lineItems : List Json),
        req.method = "POST" → validateEnvironment env = .ok () →
        verifyWebhookSignature
          (match req.body with | .raw s => s | .parsed j => ov.stringify j)
          req.signatureHeader req.timestampHeader env.webhookSecret = true →
        (match req.body with | .raw s => ov.parse s | .parsed j => some j) = some payload →
        validateWebhookPayload payload = .ok (customerEmail, lineItems, orderData) →
        ((handler ov env req c).1).status = 200) := by
  refine ⟨processItems_length, ?_, ?_⟩
  · intro ov env orderId customerEmail orderData a b d presp g presp2 g2 c e
    intro hfA hfB hfD hBA hDA hprodA hwkA hglA hgtA hprodB hprodD hwkD hglD hgtD hsend
    have hstepA := processLineItem_success ov env orderId customerEmail orderData a presp g c
      hfA hprodA hwkA hglA hgtA hsend
    have hfB1 := isAlreadyProcessed_markAsProcessed_ne
      { productId := jsGetProp a "productId", status := "success",
        workshopName := jsOr (jsGetProp g "name") (jsGetProp a "name"),
        emailSent := some true } hBA hfB
    have hstepB := processLineItem_fetch_error ov env orderId customerEmail orderData b
      (markAsProcessed (idempotencyKeyFor orderId customerEmail (jsGetProp a "productId"))
        { productId := jsGetProp a "productId", status := "success",
          workshopName := jsOr (jsGetProp g "name") (jsGetProp a "name"),
          emailSent := some true } c) e hfB1 hprodB
    have hfD1 := isAlreadyProcessed_markAsProcessed_ne
      { productId := jsGetProp a "productId", status := "success",
        workshopName := jsOr (jsGetProp g "name") (jsGetProp a "name"),
        emailSent := some true } hDA hfD
    have hstepD := processLineItem_success ov env orderId customerEmail orderData d presp2 g2
      (markAsProcessed (idempotencyKeyFor orderId customerEmail (jsGetProp a "productId"))
        { productId := jsGetProp a "productId", status := "success",
          workshopName := jsOr (jsGetProp g "name") (jsGetProp a "name"),
          emailSent := some true } c)
      hfD1 hprodD hwkD hglD hgtD hsend
    simp only [processItems, hstepA, hstepB, hstepD]
    rfl
  · intro ov env req c payload customerEmail orderData lineItems hm henv hsig hparse hval
    rw [handler_eq_ok hm henv hsig hparse hval]

/-- The thrown fetch error of the C5 witness. -/
def c5Err : JsErr := { message := "Request failed with status code 503", status := some 503 }

/-- Collaborators for the C5 witness: the product fetch throws for product
`p2` and succeeds otherwise. -/
def c5Oracles : Oracles :=
  { stringify := fun _ => ""
    parse := fun _ => none
    getProduct := fun _ pid =>
      match pid with
      | some (.str "p2") => .error c5Err
      | _ => .ok wProduct
    resolveGuidelines := fun _ _ => .ok wGuidelines
    sendWorkshopEmail := fun _ _ _ _ => .ok () }

theorem fanout_isolation_witness :
    (isAlreadyProcessed (idempotencyKeyFor (some (Json.str "o1")) (Json.str "a@b.com")
        (jsGetProp (wItem "p1") "productId")) [] = false
      ∧ isAlreadyProcessed (idempotencyKeyFor (some (Json.str "o1")) (Json.str "a@b.com")
          (jsGetProp (wItem "p2") "productId")) [] = false
      ∧ isAlreadyProcessed (idempotencyKeyFor (some (Json.str "o1")) (Json.str "a@b.com")
          (jsGetProp (wItem "p3") "productId")) [] = false
      ∧ idempotencyKeyFor (some (Json.str "o1")) (Json.str "a@b.com")
          (jsGetProp (wItem "p2") "productId")
        ≠ idempotencyKeyFor (some (Json.str "o1")) (Json.str "a@b.com")
          (jsGetProp (wItem "p1") "productId")
      ∧ idempotencyKeyFor (some (Json.str "o1")) (Json.str "a@b.com")
          (jsGetProp (wItem "p3") "productId")
        ≠ idempotencyKeyFor (some (Json.str "o1")) (Json.str "a@b.com")
          (jsGetProp (wItem "p1") "productId")
      ∧ c5Oracles.getProduct wEnv.siteId (jsGetProp (wItem "p1") "productId") = .ok wProduct
      ∧ c5Oracles.getProduct wEnv.siteId (jsGetProp (wItem "p2") "productId") = .error c5Err
      ∧ c5Oracles.getProduct wEnv.siteId (jsGetProp (wItem "p3") "productId") = .ok wProduct
      ∧ c8Req.method = "POST"
      ∧ validateEnvironment wEnv = .ok ()
      ∧ verifyWebhookSignature
          (match c8Req.body with | .raw s => s | .parsed j => c8Oracles.stringify j)
          c8Req.signatureHeader c8Req.timestampHeader wEnv.webhookSecret = true
      ∧ (match c8Req.body with | .raw s => c8Oracles.parse s | .parsed j => some j)
          = some c8Payload
      ∧ validateWebhookPayload c8Payload = .ok (Json.str "a@b.com", [wItem "p1"], c8Payload))
  ∧ ((processItems c5Oracles wEnv (some (Json.str "o1")) (Json.str "a@b.com") (Json.obj [])
        [wItem "p1", wItem "p2", wItem "p3"] []).1).length
      = [wItem "p1", wItem "p2", wItem "p3"].length
  ∧ (processItems c5Oracles wEnv (some (Json.str "o1")) (Json.str "a@b.com") (Json.obj [])
        [wItem "p1", wItem "p2", wItem "p3"] []).1.map (fun r => (r.status, r.error))
      = [("success", none), ("error", some c5Err.message), ("success", none)]
  ∧ ((handler c8Oracles wEnv c8Req []).1).status = 200 := by
  have hBA : idempotencyKeyFor (some (Json.str "o1")) (Json.str "a@b.com")
      (jsGetProp (wItem "p2") "productId")
      ≠ idempotencyKeyFor (some (Json.str "o1")) (Json.str "a@b.com")
      (jsGetProp (wItem "p1") "productId") := by decide
  have hDA : idempotencyKeyFor (some (Json.str "o1")) (Json.str "a@b.com")
      (jsGetProp (wItem "p3") "productId")
      ≠ idempotencyKeyFor (some (Json.str "o1")) (Json.str "a@b.com")
      (jsGetProp (wItem "p1") "productId") := by decide
  have hsig : verifyWebhookSignature
      (match c8Req.body with | .raw s => s | .parsed j => c8Oracles.stringify j)
      c8Req.signatureHeader c8Req.timestampHeader wEnv.webhookSecret = true := by decide
  exact ⟨⟨rfl, rfl, rfl, hBA, hDA, rfl, rfl, rfl, rfl, rfl, hsig, rfl, rfl⟩,
    fanout_isolation.1 c5Oracles wEnv (some (Json.str "o1")) (Json.str "a@b.com") (Json.obj [])
      [wItem "p1", wItem "p2", wItem "p3"] [],
    fanout_isolation.2.1 c5Oracles wEnv (some (Json.str "o1")) (Json.str "a@b.com")
      (Json.obj []) (wItem "p1") (wItem "p2") (wItem "p3") wProduct wGuidelines wProduct
      wGuidelines [] c5Err rfl rfl rfl hBA hDA rfl rfl rfl rfl rfl rfl rfl rfl rfl
      (fun _ _ _ _ => rfl),
    fanout_isolation.2.2 c8Oracles wEnv c8Req [] c8Payload (Json.str "a@b.com") c8Payload
      [wItem "p1"] rfl rfl hsig rfl rfl⟩

/-- C10: whenever a request passes the method check, environment validation,
signature verification, JSON parsing and payload validation, the response's
top-level `success` field is `true` (regardless of the per-item results,
which range over arbitrary collaborator outcomes); and `success: false`
occurs only for whole-request failures caught by the outer handler — an
environment validation error or a payload validation error — never as an
aggregate of per-item outcomes. -/
theorem success_flag_semantics :
    (∀ (ov : Oracles) (env : EnvVars) (req : Req) (c : Cache)
        (payload customerEmail orderData : Json) (lineItems : List Json),
        req.method = "POST" → validateEnvironment env = .ok () →
        verifyWebhookSignature
          (match req.body with | .raw s => s | .parsed j => ov.stringify j)
          req.signatureHeader req.timestampHeader env.webhookSecret = true →
        (match req.body with | .raw s => ov.parse s | .parsed j => some j) = some payload →
        validateWebhookPayload payload = .ok (customerEmail, lineItems, orderData) →
        (handler ov env req c).1.status = 200
          ∧ successField (handler ov env req c).1 = some true)
  ∧ (∀ (ov : Oracles) (env : EnvVars) (req : Req) (c : Cache),
        successField (handler ov env req c).1 = some false →
        (handler ov env req c).1.status = 200
          ∧ ((∃ m, validateEnvironment env = .error m)
            ∨ (∃ payload m,
                (match req.body with | .raw s => ov.parse s | .parsed j => some j)
                  = some payload
                ∧ validateWebhookPayload payload = .error m))) := by
  constructor
  · intro ov env req c payload customerEmail orderData lineItems hm henv hsig hparse hval
    rw [handler_eq_ok hm henv hsig hparse hval]
    exact ⟨rfl, rfl⟩
  · intro ov env req c h
    by_cases hm : req.method = "POST"
    · cases henv : validateEnvironment env with
      | error m =>
        have he : handler ov env req c = (catchResponse m, c, 0) := by
          simp [handler, hm, henv]
        rw [he]
        exact ⟨rfl, Or.inl ⟨m, rfl⟩⟩
      | ok u =>
        cases u
        by_cases hsig : verifyWebhookSignature
            (match req.body with | .raw s => s | .parsed j => ov.stringify j)
            req.signatureHeader req.timestampHeader env.webhookSecret = true
        · cases hparse : (match req.body with | .raw s => ov.parse s | .parsed j => some j) with
          | none =>
            have he : handler ov env req c
                = ({ status := 400, body := .err "Invalid JSON payload" }, c, 0) := by
              simp [handler, hm, henv, hsig, hparse]
            rw [he] at h
            simp [successField] at h
          | some payload =>
            cases hval : validateWebhookPayload payload with
            | error m =>
              have he : handler ov env req c = (catchResponse m, c, 0) := by
                simp [handler, hm, henv, hsig, hparse, hval]
              rw [he]
              exact ⟨rfl, Or.inr ⟨payload, m, rfl, hval⟩⟩
            | ok triple =>
              obtain ⟨customerEmail, lineItems, orderData⟩ := triple
              rw [handler_eq_ok hm henv hsig hparse hval] at h
              simp [successField] at h
        · have hsig' : verifyWebhookSignature
              (match req.body with | .raw s => s | .parsed j => ov.stringify j)
              req.signatureHeader req.timestampHeader env.webhookSecret = false := by
            simpa using hsig
          have he : handler ov env req c
              = ({ status := 401, body := .err "Invalid signature" }, c, 0) := by
            simp [handler, hm, henv, hsig']
          rw [he] at h
          simp [successField] at h
    · have he : handler ov env req c
          = ({ status := 405, body := .err "Method not allowed" }, c, 0) := by
        simp [handler, hm]
      rw [he] at h
      simp [successField] at h

/-- A request hitting an empty environment, for the C10 witness. -/
def c10Req : Req := { method := "POST", body := .raw "x" }

/-- An environment with no variables set, for the C10 witness. -/
def c10Env : EnvVars := {}

theorem success_flag_semantics_witness :
    (c8Req.method = "POST"
      ∧ validateEnvironment wEnv = .ok ()
      ∧ verifyWebhookSignature
          (match c8Req.body with | .raw s => s | .parsed j => c8Oracles.stringify j)
          c8Req.signatureHeader c8Req.timestampHeader wEnv.webhookSecret = true
      ∧ (match c8Req.body with | .raw s => c8Oracles.parse s | .parsed j => some j)
          = some c8Payload
      ∧ validateWebhookPayload c8Payload = .ok (Json.str "a@b.com", [wItem "p1"], c8Payload)
      ∧ successField (handler wOracles c10Env c10Req []).1 = some false)
  ∧ ((handler c8Oracles wEnv c8Req []).1.status = 200
      ∧ successField (handler c8Oracles wEnv c8Req []).1 = some true)
  ∧ ((handler wOracles c10Env c10Req []).1.status = 200
      ∧ ((∃ m, validateEnvironment c10Env = .error m)
        ∨ (∃ payload m,
            (match c10Req.body with | .raw s => wOracles.parse s | .parsed j => some j)
              = some payload
            ∧ validateWebhookPayload payload = .error m))) := by
  have hsig : verifyWebhookSignature
      (match c8Req.body with | .raw s => s | .parsed j => c8Oracles.stringify j)
      c8Req.signatureHeader c8Req.timestampHeader wEnv.webhookSecret = true := by decide
  have hfalse : successField (handler wOracles c10Env c10Req []).1 = some false := by decide
  exact ⟨⟨rfl, rfl, hsig, rfl, rfl, hfalse⟩,
    success_flag_semantics.1 c8Oracles wEnv c8Req [] c8Payload (Json.str "a@b.com") c8Payload
      [wItem "p1"] rfl rfl hsig rfl rfl,
    success_flag_semantics.2 wOracles c10Env c10Req [] hfalse⟩

/-- The payload of the C7 failing input: valid customer email, empty line
items array. -/
def c7Payload : Json :=
  Json.obj [("customer", Json.obj [("email", Json.str "a@b.com")]),
    ("lineItems", Json.arr [])]

/-- The raw request body whose parse yields `c7Payload`. -/
def c7Body : String := "\x7b\"customer\":\x7b\"email\":\"a@b.com\"\x7d,\"lineItems\":[]\x7d"

/-- Collaborators for the C7 failing input (no upstream call is reached). -/
def c7Oracles : Oracles :=
  { stringify := fun _ => ""
    parse := fun s => if s = c7Body then some c7Payload else none
    getProduct := fun _ _ => .error { message := "unreachable" }
    resolveGuidelines := fun _ _ => .error { message := "unreachable" }
    sendWorkshopEmail := fun _ _ _ _ => .error { message := "unreachable" } }

/-- The signed C7 request over the raw body. -/
def c7Req : Req :=
  { method := "POST", body := .raw c7Body,
    signatureHeader := some (hexOfBytes (hmacSha256 (utf8Bytes "s")
      (utf8Bytes ("1688000000000:" ++ c7Body)))),
    timestampHeader := some "1688000000000" }

/-- C7: evaluation of the code at the failing input.  A fully authenticated
request whose order has an empty line items list throws the validation
error `"No items in order"`, but the outer catch's sanitisation test —
`message.includes('Invalid') || message.includes('Missing')` — does not
match that message, so the handler responds HTTP 200 with
`{success: false, error: "Internal processing error"}` instead of the
`"No items in order"` the claim (and the spec's validation section)
promises.  The remainder of the claim matches the code; this theorem pins
the divergence. -/
theorem no_items_message_masked :
    exceptErrMsg (validateWebhookPayload c7Payload) = some "No items in order"
  ∧ (handler c7Oracles wEnv c7Req []).1.status = 200
  ∧ successField (handler c7Oracles wEnv c7Req []).1 = some false
  ∧ errorField (handler c7Oracles wEnv c7Req []).1 = some "Internal processing error"
  ∧ errorField (handler c7Oracles wEnv c7Req []).1 ≠ some "No items in order" := by
  refine ⟨rfl, ?_, ?_, ?_, ?_⟩ <;> decide

/-- C2 (amended): `verifyWebhookSignature` is a total boolean function
(never throws: the only throwing operation, `timingSafeEqual`, is caught)
and returns `false` whenever the signature, timestamp, or secret is absent
or empty, and whenever the supplied signature hex-decodes — under Node's
decoder, which is case-insensitive and truncates at the first invalid
character — to a byte length different from the 32-byte HMAC digest.  A
malformed-hex signature is rejected only through that rule: if its decoded
prefix happens to equal the expected digest, verification still succeeds
(see the counterexample). -/
theorem verify_fails_closed :
    (∀ body ts sec, verifyWebhookSignature body none ts sec = false)
  ∧ (∀ body ts sec, verifyWebhookSignature body (some "") ts sec = false)
  ∧ (∀ body sig sec, verifyWebhookSignature body sig none sec = false)
  ∧ (∀ body sig sec, verifyWebhookSignature body sig (some "") sec = false)
  ∧ (∀ body sig ts, verifyWebhookSignature body sig ts none = false)
  ∧ (∀ body sig ts, verifyWebhookSignature body sig ts (some "") = false)
  ∧ (∀ (body ts sec sig : String), (nodeHexDecode sig).length ≠ 32 →
        verifyWebhookSignature body (some sig) (some ts) (some sec) = false) := by
  refine ⟨?_, ?_, ?_, ?_, ?_, ?_, ?_⟩
  · intro body ts sec
    cases ts <;> cases sec <;> simp [verifyWebhookSignature]
  · intro body ts sec
    cases ts <;> cases sec <;> simp [verifyWebhookSignature]
  · intro body sig sec
    cases sig <;> cases sec <;> simp [verifyWebhookSignature]
  · intro body sig sec
    cases sig <;> cases sec <;> simp [verifyWebhookSignature]
  · intro body sig ts
    cases sig <;> cases ts <;> simp [verifyWebhookSignature]
  · intro body sig ts
    cases sig <;> cases ts <;> simp [verifyWebhookSignature]
  · intro body ts sec sig hlen
    by_cases hguard : sig = "" ∨ ts = "" ∨ sec = ""
    · simp [verifyWebhookSignature, hguard]
    · simp only [verifyWebhookSignature]
      rw [if_neg hguard]
      have hexp : nodeHexDecode
          (hexOfBytes (hmacSha256 (utf8Bytes sec) (utf8Bytes (ts ++ ":" ++ body))))
          = hmacSha256 (utf8Bytes sec) (utf8Bytes (ts ++ ":" ++ body)) :=
        nodeHexDecode_hexOfBytes (fun _ hx => hmacSha256_lt hx)
      rw [hexp]
      have hts : timingSafeEqual (nodeHexDecode sig)
          (hmacSha256 (utf8Bytes sec) (utf8Bytes (ts ++ ":" ++ body)))
          = .error "Input buffers must have the same byte length" := by
        unfold timingSafeEqual
        rw [if_neg]
        rw [hmacSha256_length]
        exact hlen
      rw [hts]

theorem verify_fails_closed_witness :
    ((nodeHexDecode "zz").length ≠ 32)
  ∧ verifyWebhookSignature "b" none (some "1") (some "s") = false
  ∧ verifyWebhookSignature "b" (some "") (some "1") (some "s") = false
  ∧ verifyWebhookSignature "b" (some "ab") none (some "s") = false
  ∧ verifyWebhookSignature "b" (some "ab") (some "") (some "s") = false
  ∧ verifyWebhookSignature "b" (some "ab") (some "1") none = false
  ∧ verifyWebhookSignature "b" (some "ab") (some "1") (some "") = false
  ∧ verifyWebhookSignature "b" (some "zz") (some "1") (some "s") = false := by
  refine ⟨by decide, verify_fails_closed.1 "b" (some "1") (some "s"),
    verify_fails_closed.2.1 "b" (some "1") (some "s"),
    verify_fails_closed.2.2.1 "b" (some "ab") (some "s"),
    verify_fails_closed.2.2.2.1 "b" (some "ab") (some "s"),
    verify_fails_closed.2.2.2.2.1 "b" (some "ab") (some "1"),
    verify_fails_closed.2.2.2.2.2.1 "b" (some "ab") (some "1"),
    verify_fails_closed.2.2.2.2.2.2 "b" "1" "s" "zz" (by decide)⟩

/-- C2 counterexample: a malformed-hex signature — the expected 64 hex
characters with a trailing invalid character `z` appended — still verifies
`true`, because Node's hex decoder silently truncates at the first invalid
character and the decoded prefix equals the expected digest; the claim as
stated requires `false` for every malformed-hex signature. -/
theorem malformed_hex_sig_accepted_cex :
    (hexOfBytes (hmacSha256 (utf8Bytes "s") (utf8Bytes "1:b")) ++ "z").data.any
        (fun ch => (decNib ch).isNone) = true
  ∧ verifyWebhookSignature "b"
      (some (hexOfBytes (hmacSha256 (utf8Bytes "s") (utf8Bytes "1:b")) ++ "z"))
      (some "1") (some "s") = true := by
  exact ⟨by decide, by decide⟩

/-! ## Single-bit mutations of a hex signature (C1 machinery) -/

theorem take_getD_drop {α : Type} (l : List α) (q : Nat) (d : α) (h : q < l.length) :
    l.take q ++ l.getD q d :: l.drop (q + 1) = l := by
  induction l generalizing q with
  | nil => simp at h
  | cons y t ih =>
    cases q with
    | zero => simp [List.getD]
    | succ n =>
      simp only [List.take_succ_cons, List.drop_succ_cons, List.getD_cons_succ,
        List.cons_append, List.cons.injEq, true_and]
      exact ih n (by simpa using h)

/-- What `decNib` yields on a hex digit character with one bit flipped: the
value is preserved exactly when the flipped bit is bit 5 on a letter digit
(the lowercase/uppercase bit of `a`-`f`); every other flip yields an invalid
character or a different nibble value. -/
theorem decNib_flip : ∀ n, n < 16 → ∀ b, b < 8 →
    ((decNib (Char.ofNat ((hexDigitChar n).toNat ^^^ (1 <<< b)))).isNone = true →
        ¬(b = 5 ∧ 10 ≤ n))
    ∧ ((decNib (Char.ofNat ((hexDigitChar n).toNat ^^^ (1 <<< b)))).isSome = true →
        (((decNib (Char.ofNat ((hexDigitChar n).toNat ^^^ (1 <<< b)))).getD 0 = n)
          ↔ (b = 5 ∧ 10 ≤ n))) := by decide

theorem verify_correct_sig (secret ts body : String) (hsec : secret ≠ "") (hts : ts ≠ "") :
    verifyWebhookSignature body
      (some (hexOfBytes (hmacSha256 (utf8Bytes secret) (utf8Bytes (ts ++ ":" ++ body)))))
      (some ts) (some secret) = true := by
  have hne : hexOfBytes (hmacSha256 (utf8Bytes secret) (utf8Bytes (ts ++ ":" ++ body))) ≠ "" := by
    refine hexOfBytes_ne_empty ?_
    intro hnil
    have hl := hmacSha256_length (utf8Bytes secret) (utf8Bytes (ts ++ ":" ++ body))
    rw [hnil] at hl
    simp at hl
  simp only [verifyWebhookSignature]
  rw [if_neg (by push_neg; exact ⟨hne, hts, hsec⟩)]
  rw [timingSafeEqual_self]

/-- Decoding a correct hex signature after flipping one bit of character
`j`: if the flip is bit 5 of a letter digit the decode is unchanged; if the
mutated character decodes to a different nibble the decode differs from the
digest in exactly byte `j / 2`; otherwise the mutated character is invalid
hex and Node's decoder truncates to the first `j / 2` bytes. -/
theorem flip_decode_cases (D : List Nat) (hlen : D.length = 32) (hlt : ∀ x ∈ D, x < 256)
    (j b : Nat) (hj : j < 64) (hb : b < 8) :
    (¬(b = 5 ∧ 10 ≤ hexNibbleAt D j)
      ∧ nodeHexDecode (flipBit (hexOfBytes D) j b) = D.take (j / 2))
    ∨ ((b = 5 ∧ 10 ≤ hexNibbleAt D j)
      ∧ nodeHexDecode (flipBit (hexOfBytes D) j b) = D)
    ∨ (¬(b = 5 ∧ 10 ≤ hexNibbleAt D j)
      ∧ ∃ y, y ≠ D.getD (j / 2) 0
        ∧ nodeHexDecode (flipBit (hexOfBytes D) j b)
            = D.take (j / 2) ++ y :: D.drop (j / 2 + 1)) := by
  have hqD : j / 2 < D.length := by omega
  have hdecomp := take_getD_drop D (j / 2) 0 hqD
  have hx : D.getD (j / 2) 0 < 256 := by
    rw [List.getD_eq_getElem D 0 hqD]
    exact hlt _ (List.getElem_mem hqD)
  have hPlen : (D.take (j / 2)).length = j / 2 := by
    rw [List.length_take]
    omega
  have hPlt : ∀ y ∈ D.take (j / 2), y < 256 := fun y hy => hlt y (List.take_subset _ _ hy)
  have hSlt : ∀ y ∈ D.drop (j / 2 + 1), y < 256 := fun y hy => hlt y (List.drop_subset _ _ hy)
  have hSdec : decodePairs (hexChars (D.drop (j / 2 + 1))) = D.drop (j / 2 + 1) := by
    simpa [decodePairs] using decodePairs_hexChars_append (D.drop (j / 2 + 1)) [] hSlt
  have hhexD : hexChars D
      = hexChars (D.take (j / 2)) ++ hexDigitChar (D.getD (j / 2) 0 / 16)
          :: hexDigitChar (D.getD (j / 2) 0 % 16) :: hexChars (D.drop (j / 2 + 1)) := by
    conv_lhs => rw [← hdecomp]
    rw [hexChars_append]
    rfl
  have hPclen : (hexChars (D.take (j / 2))).length = 2 * (j / 2) := by
    rw [hexChars_length, hPlen]
  have hd1 : decNib (hexDigitChar (D.getD (j / 2) 0 / 16)) = some (D.getD (j / 2) 0 / 16) :=
    decNib_hexDigitChar _ (by omega)
  have hd2 : decNib (hexDigitChar (D.getD (j / 2) 0 % 16)) = some (D.getD (j / 2) 0 % 16) :=
    decNib_hexDigitChar _ (by omega)
  rcases Nat.mod_two_eq_zero_or_one j with hpar | hpar
  · -- even position: the high nibble of byte j / 2 is mutated
    have hnib : hexNibbleAt D j = D.getD (j / 2) 0 / 16 := by simp [hexNibbleAt, hpar]
    have horig : (hexChars D).getD j (Char.ofNat 0)
        = hexDigitChar (D.getD (j / 2) 0 / 16) := by
      rw [hhexD, List.getD_append_right _ _ _ j (by rw [hPclen]; omega)]
      have hz : j - (hexChars (D.take (j / 2))).length = 0 := by rw [hPclen]; omega
      rw [hz]
      rfl
    have hmut : (flipBit (hexOfBytes D) j b).data
        = hexChars (D.take (j / 2))
          ++ Char.ofNat ((hexDigitChar (D.getD (j / 2) 0 / 16)).toNat ^^^ (1 <<< b))
          :: hexDigitChar (D.getD (j / 2) 0 % 16) :: hexChars (D.drop (j / 2 + 1)) := by
      show (hexChars D).set j (Char.ofNat
        ((((hexChars D).getD j (Char.ofNat 0)).toNat) ^^^ (1 <<< b))) = _
      rw [horig, hhexD, List.set_append, if_neg (by rw [hPclen]; omega)]
      have hz : j - (hexChars (D.take (j / 2))).length = 0 := by rw [hPclen]; omega
      rw [hz]
      rfl
    obtain ⟨hnone, hsome⟩ := decNib_flip (D.getD (j / 2) 0 / 16) (by omega) b hb
    cases hc : decNib (Char.ofNat
        ((hexDigitChar (D.getD (j / 2) 0 / 16)).toNat ^^^ (1 <<< b))) with
    | none =>
      left
      refine ⟨by rw [hnib]; exact hnone (by rw [hc]; rfl), ?_⟩
      rw [nodeHexDecode, hmut, decodePairs_hexChars_append _ _ hPlt]
      simp only [decodePairs]
      rw [hc]
      simp
    | some m =>
      have hiff : (m = D.getD (j / 2) 0 / 16) ↔ (b = 5 ∧ 10 ≤ D.getD (j / 2) 0 / 16) := by
        have h2 := hsome (by rw [hc]; rfl)
        rw [hc] at h2
        simpa using h2
      have hdec : nodeHexDecode (flipBit (hexOfBytes D) j b)
          = D.take (j / 2) ++ (16 * m + D.getD (j / 2) 0 % 16) :: D.drop (j / 2 + 1) := by
        rw [nodeHexDecode, hmut, decodePairs_hexChars_append _ _ hPlt]
        simp only [decodePairs]
        rw [hc, hd2, hSdec]
      by_cases hcond : b = 5 ∧ 10 ≤ D.getD (j / 2) 0 / 16
      · right; left
        refine ⟨by rw [hnib]; exact hcond, ?_⟩
        rw [hdec, hiff.mpr hcond, Nat.div_add_mod]
        exact hdecomp
      · right; right
        refine ⟨by rw [hnib]; exact hcond, 16 * m + D.getD (j / 2) 0 % 16, ?_, hdec⟩
        have hm : m ≠ D.getD (j / 2) 0 / 16 := fun he => hcond (hiff.mp he)
        omega
  · -- odd position: the low nibble of byte j / 2 is mutated
    have hnib : hexNibbleAt D j = D.getD (j / 2) 0 % 16 := by simp [hexNibbleAt, hpar]
    have horig : (hexChars D).getD j (Char.ofNat 0)
        = hexDigitChar (D.getD (j / 2) 0 % 16) := by
      rw [hhexD, List.getD_append_right _ _ _ j (by rw [hPclen]; omega)]
      have hz : j - (hexChars (D.take (j / 2))).length = 1 := by rw [hPclen]; omega
      rw [hz]
      rfl
    have hmut : (flipBit (hexOfBytes D) j b).data
        = hexChars (D.take (j / 2))
          ++ hexDigitChar (D.getD (j / 2) 0 / 16)
          :: Char.ofNat ((hexDigitChar (D.getD (j / 2) 0 % 16)).toNat ^^^ (1 <<< b))
          :: hexChars (D.drop (j / 2 + 1)) := by
      show (hexChars D).set j (Char.ofNat
        ((((hexChars D).getD j (Char.ofNat 0)).toNat) ^^^ (1 <<< b))) = _
      rw [horig, hhexD, List.set_append, if_neg (by rw [hPclen]; omega)]
      have hz : j - (hexChars (D.take (j / 2))).length = 1 := by rw [hPclen]; omega
      rw [hz]
      rfl
    obtain ⟨hnone, hsome⟩ := decNib_flip (D.getD (j / 2) 0 % 16) (by omega) b hb
    cases hc : decNib (Char.ofNat
        ((hexDigitChar (D.getD (j / 2) 0 % 16)).toNat ^^^ (1 <<< b))) with
    | none =>
      left
      refine ⟨by rw [hnib]; exact hnone (by rw [hc]; rfl), ?_⟩
      rw [nodeHexDecode, hmut, decodePairs_hexChars_append _ _ hPlt]
      simp only [decodePairs]
      rw [hd1, hc]
      simp
    | some m =>
      have hiff : (m = D.getD (j / 2) 0 % 16) ↔ (b = 5 ∧ 10 ≤ D.getD (j / 2) 0 % 16) := by
        have h2 := hsome (by rw [hc]; rfl)
        rw [hc] at h2
        simpa using h2
      have hdec : nodeHexDecode (flipBit (hexOfBytes D) j b)
          = D.take (j / 2) ++ (16 * (D.getD (j / 2) 0 / 16) + m) :: D.drop (j / 2 + 1) := by
        rw [nodeHexDecode, hmut, decodePairs_hexChars_append _ _ hPlt]
        simp only [decodePairs]
        rw [hd1, hc, hSdec]
      by_cases hcond : b = 5 ∧ 10 ≤ D.getD (j / 2) 0 % 16
      · right; left
        refine ⟨by rw [hnib]; exact hcond, ?_⟩
        rw [hdec, hiff.mpr hcond, Nat.div_add_mod]
        exact hdecomp
      · right; right
        refine ⟨by rw [hnib]; exact hcond, 16 * (D.getD (j / 2) 0 / 16) + m, ?_, hdec⟩
        have hm : m ≠ D.getD (j / 2) 0 % 16 := fun he => hcond (hiff.mp he)
        omega

theorem verify_flipBit_iff (secret ts body : String) (hsec : secret ≠ "") (hts : ts ≠ "")
    (j b : Nat) (hj : j < 64) (hb : b < 8) :
    (verifyWebhookSignature body
        (some (flipBit (hexOfBytes (hmacSha256 (utf8Bytes secret)
          (utf8Bytes (ts ++ ":" ++ body)))) j b))
        (some ts) (some secret) = true)
      ↔ (b = 5 ∧ 10 ≤ hexNibbleAt
          (hmacSha256 (utf8Bytes secret) (utf8Bytes (ts ++ ":" ++ body))) j) := by
  have hlen : (hmacSha256 (utf8Bytes secret) (utf8Bytes (ts ++ ":" ++ body))).length = 32 :=
    hmacSha256_length _ _
  have hlt : ∀ x ∈ hmacSha256 (utf8Bytes secret) (utf8Bytes (ts ++ ":" ++ body)), x < 256 :=
    fun _ hx => hmacSha256_lt hx
  have hflen : (flipBit (hexOfBytes (hmacSha256 (utf8Bytes secret)
      (utf8Bytes (ts ++ ":" ++ body)))) j b).data.length = 64 := by
    show ((hexChars (hmacSha256 (utf8Bytes secret) (utf8Bytes (ts ++ ":" ++ body)))).set j
      _).length = 64
    rw [List.length_set, hexChars_length, hlen]
  have hfne : flipBit (hexOfBytes (hmacSha256 (utf8Bytes secret)
      (utf8Bytes (ts ++ ":" ++ body)))) j b ≠ "" := by
    intro he
    have h0 := congrArg (fun s : String => s.data.length) he
    simp only [hflen] at h0
    simp at h0
  have hexp : nodeHexDecode (hexOfBytes (hmacSha256 (utf8Bytes secret)
      (utf8Bytes (ts ++ ":" ++ body))))
      = hmacSha256 (utf8Bytes secret) (utf8Bytes (ts ++ ":" ++ body)) :=
    nodeHexDecode_hexOfBytes hlt
  simp only [verifyWebhookSignature]
  rw [if_neg (by push_neg; exact ⟨hfne, hts, hsec⟩)]
  rw [hexp]
  rcases flip_decode_cases (hmacSha256 (utf8Bytes secret) (utf8Bytes (ts ++ ":" ++ body)))
      hlen hlt j b hj hb with ⟨hneg, hdec⟩ | ⟨hpos, hdec⟩ | ⟨hneg, y, hy, hdec⟩
  · rw [hdec]
    have htse : timingSafeEqual
        (List.take (j / 2) (hmacSha256 (utf8Bytes secret) (utf8Bytes (ts ++ ":" ++ body))))
        (hmacSha256 (utf8Bytes secret) (utf8Bytes (ts ++ ":" ++ body)))
        = .error "Input buffers must have the same byte length" := by
      unfold timingSafeEqual
      rw [if_neg]
      rw [List.length_take, hlen]
      omega
    rw [htse]
    simp [hneg]
  · rw [hdec, timingSafeEqual_self]
    simp [hpos]
  · rw [hdec]
    have hDdecomp := take_getD_drop
      (hmacSha256 (utf8Bytes secret) (utf8Bytes (ts ++ ":" ++ body))) (j / 2) 0 (by omega)
    have hlen2 : (List.take (j / 2) (hmacSha256 (utf8Bytes secret)
          (utf8Bytes (ts ++ ":" ++ body)))
        ++ y :: List.drop (j / 2 + 1) (hmacSha256 (utf8Bytes secret)
          (utf8Bytes (ts ++ ":" ++ body)))).length
        = (hmacSha256 (utf8Bytes secret) (utf8Bytes (ts ++ ":" ++ body))).length := by
      conv_rhs => rw [← hDdecomp]
      simp
    have hne2 : List.take (j / 2) (hmacSha256 (utf8Bytes secret)
          (utf8Bytes (ts ++ ":" ++ body)))
        ++ y :: List.drop (j / 2 + 1) (hmacSha256 (utf8Bytes secret)
          (utf8Bytes (ts ++ ":" ++ body)))
        ≠ hmacSha256 (utf8Bytes secret) (utf8Bytes (ts ++ ":" ++ body)) := by
      intro he
      conv_rhs at he => rw [← hDdecomp]
      have hca := List.append_cancel_left he
      injection hca with h1 _
      exact hy h1
    have htse : timingSafeEqual
        (List.take (j / 2) (hmacSha256 (utf8Bytes secret) (utf8Bytes (ts ++ ":" ++ body)))
          ++ y :: List.drop (j / 2 + 1) (hmacSha256 (utf8Bytes secret)
            (utf8Bytes (ts ++ ":" ++ body))))
        (hmacSha256 (utf8Bytes secret) (utf8Bytes (ts ++ ":" ++ body))) = .ok false := by
      unfold timingSafeEqual
      rw [if_pos hlen2]
      rw [beq_eq_false_iff_ne.mpr hne2]
    rw [htse]
    simp [hneg]

/-- C1 (amended): for every secret, timestamp and raw body — with the
fail-closed proviso that secret and timestamp are non-empty —
`verifyWebhookSignature` accepts the hex-encoded HMAC-SHA256 of
`{timestamp}:{rawBody}` under the secret; and a single-bit mutation of that
signature string verifies exactly when the flipped bit is bit 5 of a hex
letter digit (`a`-`f`), i.e. the ASCII case bit, which Node's
case-insensitive hex decoder ignores — every other single-bit mutation is
rejected. -/
theorem verify_roundtrip_and_mutation (secret ts body : String)
    (hsec : secret ≠ "") (hts : ts ≠ "") :
    verifyWebhookSignature body
      (some (hexOfBytes (hmacSha256 (utf8Bytes secret) (utf8Bytes (ts ++ ":" ++ body)))))
      (some ts) (some secret) = true
  ∧ ∀ j b, j < 64 → b < 8 →
      (verifyWebhookSignature body
          (some (flipBit (hexOfBytes (hmacSha256 (utf8Bytes secret)
            (utf8Bytes (ts ++ ":" ++ body)))) j b))
          (some ts) (some secret) = true
        ↔ (b = 5 ∧ 10 ≤ hexNibbleAt (hmacSha256 (utf8Bytes secret)
            (utf8Bytes (ts ++ ":" ++ body))) j)) :=
  ⟨verify_correct_sig secret ts body hsec hts,
   fun j b hj hb => verify_flipBit_iff secret ts body hsec hts j b hj hb⟩

theorem verify_roundtrip_and_mutation_witness :
    (("s" : String) ≠ "" ∧ ("1" : String) ≠ "")
  ∧ verifyWebhookSignature "b"
      (some (hexOfBytes (hmacSha256 (utf8Bytes "s") (utf8Bytes ("1" ++ ":" ++ "b")))))
      (some "1") (some "s") = true := by
  have h := verify_roundtrip_and_mutation "s" "1" "b" (by decide) (by decide)
  exact ⟨⟨by decide, by decide⟩, h.1⟩

/-- C1 counterexample: flipping bit 5 of character 0 of the correct hex
signature (its first character is the letter `e`, and bit 5 is the ASCII
case bit, giving `E`) produces a different signature string that still
verifies `true`, because Node's hex decoder is case-insensitive; the claim
as stated requires every single-bit mutation of the signature to verify
`false`. -/
theorem caseflip_mutation_accepted_cex :
    flipBit (hexOfBytes (hmacSha256 (utf8Bytes "s") (utf8Bytes "1:b"))) 0 5
      ≠ hexOfBytes (hmacSha256 (utf8Bytes "s") (utf8Bytes "1:b"))
  ∧ verifyWebhookSignature "b"
      (some (flipBit (hexOfBytes (hmacSha256 (utf8Bytes "s") (utf8Bytes "1:b"))) 0 5))
      (some "1") (some "s") = true :=
  ⟨by decide, by decide⟩
